import Mathlib

/-
Verification development for the wind-pypcd repository.

The embedding covers main.py (geometry + fusion pipeline) over exact
rational arithmetic, with IEEE special values (NaN, +Inf, -Inf) modelled
explicitly by the FV type, and the PCD codec described by the spec
(the pypcd module itself is not part of the sources; it is modelled from
the spec where needed, see the PcdCodec section).
-/

namespace WindPypcd

instance {ε α : Type} [DecidableEq ε] [DecidableEq α] : DecidableEq (Except ε α) :=
  fun a b =>
    match a, b with
    | .error e, .error f =>
      decidable_of_iff (e = f) ⟨fun h => h ▸ rfl, fun h => by cases h; rfl⟩
    | .ok x, .ok y =>
      decidable_of_iff (x = y) ⟨fun h => h ▸ rfl, fun h => by cases h; rfl⟩
    | .error _, .ok _ => isFalse fun h => nomatch h
    | .ok _, .error _ => isFalse fun h => nomatch h

/-- Scalar float value of a point-cloud column: either a finite value
(modelled as a rational, ignoring float rounding) or one of the
non-finite IEEE values NaN, +Inf, -Inf. -/
inductive FV where
  | fin (q : ℚ)
  | nan
  | posInf
  | negInf
deriving DecidableEq, Repr

/-- Embedding of numpy.isfinite on a scalar. -/
def FV.isFinite : FV → Bool
  | .fin _ => true
  | _ => false

/-- Numeric value of a finite scalar (0 for non-finite values; the code
paths modelled here only read the value after an isfinite mask). -/
def FV.val : FV → ℚ
  | .fin q => q
  | _ => 0

/-- Model of a 2-D numpy array: a list of rows together with the column
count of its shape (the shape is carried explicitly so the shape checks
of the source can be expressed; rectangularity is a hypothesis of the
theorems). -/
structure Arr2 where
  rows : List (List ℚ)
  ncols : ℕ
deriving DecidableEq, Repr

/-- Rectangularity of an Arr2: every row has exactly ncols entries. -/
def Arr2.rect (a : Arr2) : Prop := ∀ r ∈ a.rows, r.length = a.ncols

/-- Dot product of two rational vectors (numpy row-by-column product). -/
def dotQ (a b : List ℚ) : ℚ := ((a.zip b).map fun p => p.1 * p.2).sum

/-- Matrix-vector product T @ v, one dot product per row of T. -/
def matVec (T : List (List ℚ)) (v : List ℚ) : List ℚ := T.map fun row => dotQ row v

/-- Embedding of main._validate_transform_matrix: rejects a transform
whose shape is not 4x4 or that contains NaN/Inf entries.
(The isinstance check of the source is enforced by the type.) -/
def validateTransformMatrix (m : List (List FV)) : Except String Unit :=
  if ¬ (m.length = 4 ∧ ∀ r ∈ m, r.length = 4) then
    .error "Transform must be a 4x4 matrix"
  else if ¬ (∀ r ∈ m, ∀ v ∈ r, v.isFinite = true) then
    .error "Transform matrix contains invalid values (NaN or Inf)"
  else
    .ok ()

/-- Numeric content of a validated transform matrix. -/
def matQ (m : List (List FV)) : List (List ℚ) := m.map fun r => r.map FV.val

/-- One input row of apply-transform: the x, y, z, intensity samples of a
single point as float scalars. -/
structure RawPoint where
  x : FV
  y : FV
  z : FV
  intensity : FV
deriving DecidableEq, Repr

/-- Finite-value mask of a row: all four columns are finite
(np.isfinite(x) & np.isfinite(y) & np.isfinite(z) & np.isfinite(intensity)). -/
def RawPoint.isValid (p : RawPoint) : Bool :=
  p.x.isFinite && p.y.isFinite && p.z.isFinite && p.intensity.isFinite

/-- Homogeneous coordinate row [x, y, z, 1] built for a surviving point. -/
def homoRow (p : RawPoint) : List ℚ := [p.x.val, p.y.val, p.z.val, 1]

/-- Embedding of main._apply_transform_to_points: filter the finite rows,
fail when none survive, build homogeneous coordinates, apply the
transform ((transform @ points_homo.T).T), and overwrite column 3 with
the original intensity.  Exact rational arithmetic stands in for float
arithmetic; the final astype(np.float32) is the identity at this level. -/
def applyTransformToPoints (pts : List RawPoint) (transform : List (List ℚ)) :
    Except String Arr2 :=
  if (pts.filter RawPoint.isValid).isEmpty then
    .error "No valid points found after filtering NaN values"
  else
    .ok ⟨List.zipWith (fun row p => row.set 3 p.intensity.val)
      ((pts.filter RawPoint.isValid).map fun p => matVec transform (homoRow p))
      (pts.filter RawPoint.isValid), 4⟩

/-- Model of the pc_data view of a decoded PointCloud as seen by main.py:
the four named columns, each present or absent (absent models a KeyError
on field access). -/
structure PCData where
  x : Option (List FV)
  y : Option (List FV)
  z : Option (List FV)
  intensity : Option (List FV)
deriving DecidableEq, Repr

/-- Zip of the four, equal-length column lists into rows. -/
def zip4 : List FV → List FV → List FV → List FV → List RawPoint
  | a :: xs, b :: ys, c :: zs, d :: ws => ⟨a, b, c, d⟩ :: zip4 xs ys zs ws
  | _, _, _, _ => []

/-- Embedding of main._extract_point_cloud_data: read the x, y, z,
intensity columns (KeyError on a missing field becomes the wrapped
message), and check that the four lengths agree. -/
def extractPointCloudData (pc : PCData) : Except String (List RawPoint) :=
  match pc.x with
  | none => .error "Missing required field in point cloud: 'x'"
  | some xs =>
    match pc.y with
    | none => .error "Missing required field in point cloud: 'y'"
    | some ys =>
      match pc.z with
      | none => .error "Missing required field in point cloud: 'z'"
      | some zs =>
        match pc.intensity with
        | none => .error "Missing required field in point cloud: 'intensity'"
        | some ws =>
          if xs.length = ys.length ∧ ys.length = zs.length ∧ zs.length = ws.length then
            .ok (zip4 xs ys zs ws)
          else
            .error "Point cloud field arrays have inconsistent lengths"

/-- Embedding of main.transform_point_cloud: validate the transform,
extract the columns, then apply the transform. -/
def transformPointCloud (pc : PCData) (transform : List (List FV)) :
    Except String Arr2 := do
  validateTransformMatrix transform
  let pts ← extractPointCloudData pc
  applyTransformToPoints pts (matQ transform)

/-- Opaque handle standing for a python bytes object holding a PCD file:
the byte-level decoder of the pypcd module is outside main.py, so the
fusion models take the decode function as a parameter. -/
abbrev Bytes := ℕ

/-- Embedding of main.transform_pcd_from_bytes: decode the bytes (a
decoder failure is re-raised with the wrapping message), then
transform_point_cloud. -/
def transformPcdFromBytes (decode : Bytes → Except String PCData) (b : Bytes)
    (transform : List (List FV)) : Except String Arr2 :=
  match decode b with
  | .error e => .error ("Failed to load PCD from bytes: " ++ e)
  | .ok pc => transformPointCloud pc transform

/-- Embedding of main.transform_pcd: check the path exists, load the
cloud from the path (a loader failure is re-raised with the wrapping
message), then transform_point_cloud. -/
def transformPcd (fileExists : String → Bool) (loadPcd : String → Except String PCData)
    (path : String) (transform : List (List FV)) : Except String Arr2 :=
  if fileExists path = false then
    .error ("PCD file not found: " ++ path)
  else
    match loadPcd path with
    | .error e => .error ("Failed to load PCD file " ++ path ++ ": " ++ e)
    | .ok pc => transformPointCloud pc transform

/-- One record of the structured array built by
main.numpy_array_to_structured_array: named 32-bit float fields
x, y, z, intensity. -/
structure StructuredPoint where
  x : ℚ
  y : ℚ
  z : ℚ
  intensity : ℚ
deriving DecidableEq, Repr

/-- Embedding of main.numpy_array_to_structured_array: the input must be
2-D (by type), have 4 columns, and be non-empty (arr.size == 0 is
rows * ncols == 0); each output record takes its fields from columns
0..3 of the corresponding row. -/
def numpyArrayToStructuredArray (arr : Arr2) : Except String (List StructuredPoint) :=
  if arr.ncols ≠ 4 then
    .error "Expected a Nx4 numpy array"
  else if arr.rows.length * arr.ncols = 0 then
    .error "arr cannot be empty"
  else
    .ok (arr.rows.map fun r => ⟨r.getD 0 0, r.getD 1 0, r.getD 2 0, r.getD 3 0⟩)

/-- Result of a fusion call.  Modelled from the spec: the final
PointCloud.from_array + to_bytes / save_pcd steps of the pypcd module
(absent from the sources) re-serialize the structured records with the
requested compression tag; the model keeps the records and the tag. -/
structure EncodedOut where
  recs : List StructuredPoint
  compression : String
deriving DecidableEq, Repr

/-- Up-front transform validation loop of the fusion calls
(for sensor, transform in calib.items(): if sensor in datas:
_validate_transform_matrix(transform)): the first failing sensor's error,
if any.  Dictionaries are modelled as association lists in insertion
order (python dicts preserve it). -/
def firstTransformError (datas : List String) (calib : List (String × List (List FV))) :
    Option String :=
  calib.findSome? fun st =>
    if datas.contains st.1 then
      match validateTransformMatrix st.2 with
      | .error e => some e
      | .ok _ => none
    else none

/-- Embedding of main.fusion_pcd_bytes.  The per-sensor loop catches any
exception (warning + continue), so it is a filterMap; the up-front
checks (compression tag, non-emptiness, calibration coverage, transform
validation) raise before any sensor is processed. -/
def fusionPcdBytes (decode : Bytes → Except String PCData)
    (datasBytes : List (String × Bytes)) (calib : List (String × List (List FV)))
    (compression : String) : Except String EncodedOut :=
  if ¬ (compression = "ascii" ∨ compression = "binary" ∨ compression = "binary_compressed") then
    .error "compression must be one of ascii, binary, binary_compressed"
  else if datasBytes.isEmpty ∨ calib.isEmpty then
    .error "datas_bytes and calib cannot be empty"
  else if ¬ (∀ sd ∈ datasBytes, (calib.lookup sd.1).isSome = true) then
    .error "All sensors in datas_bytes must have corresponding calibration in calib"
  else
    match firstTransformError (datasBytes.map Prod.fst) calib with
    | some e => .error e
    | none =>
      let pointClouds := datasBytes.filterMap fun sd =>
        match calib.lookup sd.1 with
        | none => none
        | some t =>
          match transformPcdFromBytes decode sd.2 t with
          | .ok pts => some pts
          | .error _ => none
      if pointClouds.isEmpty then
        .error "No valid point clouds to fuse"
      else
        let fused : Arr2 := ⟨(pointClouds.map Arr2.rows).flatten, 4⟩
        match numpyArrayToStructuredArray fused with
        | .error e => .error e
        | .ok sa => .ok ⟨sa, compression⟩

/-- Embedding of main.fusion_pcd.  Same structure as fusion_pcd_bytes,
with path-based loading: after the up-front checks every path must
exist (FileNotFoundError), then the per-sensor loop catches any
exception; the final save_pcd uses binary_compressed. -/
def fusionPcd (fileExists : String → Bool) (loadPcd : String → Except String PCData)
    (datas : List (String × String)) (calib : List (String × List (List FV))) :
    Except String EncodedOut :=
  if datas.isEmpty ∨ calib.isEmpty then
    .error "datas and calib cannot be empty"
  else if ¬ (∀ sp ∈ datas, (calib.lookup sp.1).isSome = true) then
    .error "All sensors in datas must have corresponding calibration in calib"
  else
    match firstTransformError (datas.map Prod.fst) calib with
    | some e => .error e
    | none =>
      match datas.findSome? (fun sp => if fileExists sp.2 = false then
          some ("PCD file not found: " ++ sp.2) else none) with
      | some e => .error e
      | none =>
        let pointClouds := datas.filterMap fun sp =>
          match calib.lookup sp.1 with
          | none => none
          | some t =>
            match transformPcd fileExists loadPcd sp.2 t with
            | .ok pts => some pts
            | .error _ => none
        if pointClouds.isEmpty then
          .error "No valid point clouds to fuse"
        else
          let fused : Arr2 := ⟨(pointClouds.map Arr2.rows).flatten, 4⟩
          match numpyArrayToStructuredArray fused with
          | .error e => .error e
          | .ok sa => .ok ⟨sa, "binary_compressed"⟩

/-- Minimal model of a dynamically typed python value, rich enough for the
inputs main.fuse_pointclouds inspects at run time: strings, bytes, box
dictionaries (string keys with numeric values), lists, tuples, None. -/
inductive PyVal where
  | pystr (s : String)
  | pybytes (b : Bytes)
  | pybox (d : List (String × ℚ))
  | pylist (xs : List PyVal)
  | pytuple (xs : List PyVal)
  | pynone

/-- Python isinstance(v, str). -/
def PyVal.isStr : PyVal → Bool
  | .pystr _ => true
  | _ => false

/-- Python isinstance(v, bytes). -/
def PyVal.isBytes : PyVal → Bool
  | .pybytes _ => true
  | _ => false

/-- Python isinstance(v, list). -/
def PyVal.isList : PyVal → Bool
  | .pylist _ => true
  | _ => false

/-- Dictionary lookup box[k], as an Option. -/
def boxGet (b : List (String × ℚ)) (k : String) : Option ℚ := b.lookup k

/-- Embedding of main._point_in_3d_box over a box dictionary: shape check,
extract the box parameters (a missing required key would be a KeyError —
unreachable from the filter, which checks the keys first), translate the
points by -center, rotate by -yaw about z when yaw is nonzero, and test
the three closed interval bounds.  The cosine and sine functions are
parameters: np.cos / np.sin are external to the source, and the rational
model carries no trigonometry of its own. -/
def pointIn3dBox (cosF sinF : ℚ → ℚ) (points : Arr2) (box : List (String × ℚ)) :
    Except String (List Bool) :=
  if points.ncols < 3 then
    .error "points must have at least 3 columns (x, y, z)"
  else
    match boxGet box "x", boxGet box "y", boxGet box "z",
        boxGet box "length", boxGet box "width", boxGet box "height" with
    | some cx, some cy, some cz, some len, some wid, some hgt =>
      let yaw := (boxGet box "yaw").getD 0
      let translated := points.rows.map fun r =>
        [r.getD 0 0 - cx, r.getD 1 0 - cy, r.getD 2 0 - cz]
      let rotated :=
        if yaw ≠ 0 then
          let c := cosF (-yaw)
          let s := sinF (-yaw)
          translated.map fun r =>
            [c * r.getD 0 0 - s * r.getD 1 0, s * r.getD 0 0 + c * r.getD 1 0, r.getD 2 0]
        else translated
      .ok (rotated.map fun r =>
        decide (|r.getD 0 0| ≤ len / 2) && decide (|r.getD 1 0| ≤ wid / 2) &&
          decide (|r.getD 2 0| ≤ hgt / 2))
    | _, _, _, _, _, _ => .error "KeyError in box parameters"

/-- Required keys of an ignore box, in the order the source lists them. -/
def requiredBoxKeys : List String := ["x", "y", "z", "length", "width", "height"]

/-- One step of the ignore-mask accumulation of
main._filter_points_by_ignore_areas: validate the box value (a non-dict
box raises a TypeError at the key-membership test), check the required
keys, run the containment test, and OR it into the mask. -/
def ignoreMaskStep (cosF sinF : ℚ → ℚ) (points : Arr2)
    (acc : Except String (List Bool)) (box : PyVal) : Except String (List Bool) :=
  match acc with
  | .error e => .error e
  | .ok mask =>
    match box with
    | .pybox d =>
      if ¬ (∀ k ∈ requiredBoxKeys, (boxGet d k).isSome = true) then
        .error "Box must contain keys: ['x', 'y', 'z', 'length', 'width', 'height']"
      else
        match pointIn3dBox cosF sinF points d with
        | .error e => .error e
        | .ok inBox => .ok (List.zipWith or mask inBox)
    | _ => .error "TypeError: box membership test on a non-dict value"

/-- Embedding of main._filter_points_by_ignore_areas: the empty box list
returns the points unchanged; otherwise fold the ignore mask over the
boxes and keep exactly the rows whose mask entry is false. -/
def filterPointsByIgnoreAreas (cosF sinF : ℚ → ℚ) (points : Arr2)
    (ignoreAreas : List PyVal) : Except String Arr2 :=
  if ignoreAreas.isEmpty then
    .ok points
  else if points.ncols < 3 then
    .error "points must have at least 3 columns (x, y, z)"
  else
    match ignoreAreas.foldl (ignoreMaskStep cosF sinF points)
        (.ok (points.rows.map fun _ => false)) with
    | .error e => .error e
    | .ok mask =>
      .ok ⟨((points.rows.zip mask).filter fun rm => rm.2 = false).map Prod.fst,
        points.ncols⟩

/-- Entry validation of main.fuse_pointclouds for index i: a valid entry
is a tuple or list of length 3 whose components are a string, bytes and
a list; the first violated condition's message is returned. -/
def validateLidarObj (i : ℕ) (obj : PyVal) : Option String :=
  let pre := "lidar_objs[" ++ toString i ++ "]"
  match obj with
  | .pytuple xs | .pylist xs =>
    match xs with
    | [c, b, a] =>
      if c.isStr = false then
        some (pre ++ "[0] (channel_name) must be a string")
      else if b.isBytes = false then
        some (pre ++ "[1] (pcd_bytes) must be bytes")
      else if a.isList = false then
        some (pre ++ "[2] (ignore_areas) must be a list")
      else none
    | _ => some (pre ++ " must be a tuple/list of length 3")
  | _ => some (pre ++ " must be a tuple/list of length 3")

/-- Destructuring of a validated entry into
(channel_name, pcd_bytes, ignore_areas). -/
def asTriple (obj : PyVal) : Option (String × Bytes × List PyVal) :=
  match obj with
  | .pytuple [.pystr c, .pybytes b, .pylist xs] => some (c, b, xs)
  | .pylist [.pystr c, .pybytes b, .pylist xs] => some (c, b, xs)
  | _ => none

/-- The Nx4 float array built from the finite rows of the extracted
columns (np.column_stack of the masked columns). -/
def validArr (pts : List RawPoint) : Arr2 :=
  ⟨(pts.filter RawPoint.isValid).map fun p => [p.x.val, p.y.val, p.z.val, p.intensity.val], 4⟩

/-- Exception-tracking body of the per-sensor loop of
main.fuse_pointclouds: decode the bytes, extract the columns, drop the
non-finite rows (a warning and a skip when none survive), apply the
ignore-area filter when boxes are given, and skip the sensor when no
row remains.  Ok none models the explicit skip branches. -/
def sensorRowsE (cosF sinF : ℚ → ℚ) (decode : Bytes → Except String PCData)
    (b : Bytes) (areas : List PyVal) : Except String (Option Arr2) :=
  match decode b with
  | .error e => .error e
  | .ok pc =>
    match extractPointCloudData pc with
    | .error e => .error e
    | .ok pts =>
      if (pts.filter RawPoint.isValid).isEmpty then
        .ok none
      else
        match (if areas.isEmpty then .ok (validArr pts)
            else filterPointsByIgnoreAreas cosF sinF (validArr pts) areas) with
        | .error e => .error e
        | .ok filtered =>
          if filtered.rows.isEmpty then .ok none else .ok (some filtered)

/-- Per-sensor outcome of main.fuse_pointclouds: the surrounding
try/except converts any exception into a skip (none); a skip also models
the explicit zero-point branches. -/
def sensorRows (cosF sinF : ℚ → ℚ) (decode : Bytes → Except String PCData)
    (obj : PyVal) : Option Arr2 :=
  match asTriple obj with
  | none => none
  | some cba =>
    match sensorRowsE cosF sinF decode cba.2.1 cba.2.2 with
    | .ok r => r
    | .error _ => none

/-- Embedding of main.fuse_pointclouds: type checks on the outer list,
then the validation loop over every entry (the first invalid entry
raises, before any sensor is processed), then the tolerant per-sensor
loop, the all-skipped check, and the final concatenation + structured
conversion; the result is re-serialized as binary_compressed. -/
def fusePointclouds (cosF sinF : ℚ → ℚ) (decode : Bytes → Except String PCData)
    (lidarObjs : PyVal) : Except String EncodedOut :=
  match lidarObjs with
  | .pylist objs =>
    if objs.isEmpty then
      .error "lidar_objs cannot be empty"
    else
      match objs.enum.findSome? (fun io => validateLidarObj io.1 io.2) with
      | some e => .error e
      | none =>
        let pointClouds := objs.filterMap (sensorRows cosF sinF decode)
        if pointClouds.isEmpty then
          .error "No valid point clouds to fuse"
        else
          let fused : Arr2 := ⟨(pointClouds.map Arr2.rows).flatten, 4⟩
          match numpyArrayToStructuredArray fused with
          | .error e => .error e
          | .ok sa => .ok ⟨sa, "binary_compressed"⟩
  | _ => .error "lidar_objs must be a list"

/-
PCD codec.  Modelled from the spec: the pypcd module (HeaderCodec,
PayloadCodec, TypeMap, PointCloud of spec sections 4.1-4.4) is not among
the source files of this repository — only its tests and callers are —
so the codec below follows the spec's words.  Raw numeric values are
represented by their little-endian bit patterns (naturals below
256^size); the ascii payload keeps token values directly, since the spec
leaves the ascii numeric text formatting open (section 9) and requires
only an exact round-trip.
-/

/-- Modelled from the spec: the PCD field type codes
(I signed int, U unsigned int, F float). -/
inductive TypeCode where
  | I
  | U
  | F
deriving DecidableEq, Repr

/-- Textual form of a type code, as written on the TYPE header line. -/
def TypeCode.toStr : TypeCode → String
  | .I => "I"
  | .U => "U"
  | .F => "F"

/-- Parse of a TYPE token. -/
def typeOfStr : String → Option TypeCode
  | "I" => some TypeCode.I
  | "U" => some TypeCode.U
  | "F" => some TypeCode.F
  | _ => none

/-- Modelled from the spec: the metadata record of a PCD header
(section 3). -/
structure Metadata where
  version : String
  fields : List String
  size : List ℕ
  typ : List TypeCode
  count : List ℕ
  width : ℕ
  height : ℕ
  viewpoint : List ℚ
  points : ℕ
  data : String
deriving DecidableEq, Repr

/-- One record (point) of the typed columnar buffer: for each field, its
count raw values, each value the little-endian bit pattern of one slot
(a natural below 256^size). -/
abbrev PcdRecord := List (List ℕ)

/-- Modelled from the spec: a PointCloud owns one metadata record and one
typed columnar buffer. -/
structure PCloud where
  md : Metadata
  buf : List PcdRecord
deriving DecidableEq, Repr

/-- Record width in bytes: the sum over fields of size * count. -/
def recordWidth (md : Metadata) : ℕ :=
  ((md.size.zip md.count).map fun sc => sc.1 * sc.2).sum

/-- Consistency of a cloud (the invariants of spec section 3): metadata
arrays of one length per field, points = width * height, buffer length
points, every record shaped by the counts, every value inside its
byte-width range, and the total payload size within the u32 framing of
the compressed encoding. -/
def wfCloud (pc : PCloud) : Prop :=
  pc.md.size.length = pc.md.fields.length ∧
  pc.md.typ.length = pc.md.fields.length ∧
  pc.md.count.length = pc.md.fields.length ∧
  pc.md.points = pc.md.width * pc.md.height ∧
  pc.buf.length = pc.md.points ∧
  (∀ r ∈ pc.buf, r.map List.length = pc.md.count) ∧
  (∀ r ∈ pc.buf, ∀ p ∈ r.zip pc.md.size, ∀ v ∈ p.1, v < 256 ^ p.2) ∧
  pc.md.points * recordWidth pc.md < 256 ^ 4

instance (pc : PCloud) : Decidable (wfCloud pc) := by
  unfold wfCloud
  infer_instance

/-- Token of a header line: the lexical class of one whitespace-separated
word (a plain word, a natural, or a rational literal). -/
inductive Token where
  | ts (s : String)
  | tn (n : ℕ)
  | tq (q : ℚ)
deriving DecidableEq, Repr

/-- One line of the textual header: a comment line (ignored by the
parser) or a KEY + tokens line. -/
inductive HeaderLine where
  | comment (s : String)
  | entry (key : String) (toks : List Token)
deriving DecidableEq, Repr

/-- Modelled from the spec: HeaderCodec.serialize emits the header keys
in fixed order, one line each (section 4.2). -/
def serializeHeader (md : Metadata) : List HeaderLine :=
  [.entry "VERSION" [.ts md.version],
   .entry "FIELDS" (md.fields.map .ts),
   .entry "SIZE" (md.size.map .tn),
   .entry "TYPE" (md.typ.map fun t => .ts t.toStr),
   .entry "COUNT" (md.count.map .tn),
   .entry "WIDTH" [.tn md.width],
   .entry "HEIGHT" [.tn md.height],
   .entry "VIEWPOINT" (md.viewpoint.map .tq),
   .entry "POINTS" [.tn md.points],
   .entry "DATA" [.ts md.data]]

/-- Upper-casing of one character (ascii letters only), used for the
case-insensitive key comparison of the header parser. -/
def upChar (c : Char) : Char :=
  if 97 ≤ c.toNat ∧ c.toNat ≤ 122 then Char.ofNat (c.toNat - 32) else c

/-- Case-insensitive comparison of a header key against an upper-case
target keyword. -/
def keyIs (key target : String) : Bool :=
  key.data.map upChar == target.data

/-- Partial header state while parsing: each key's value once seen. -/
structure ParseState where
  version : Option String
  fields : Option (List String)
  size : Option (List ℕ)
  typ : Option (List TypeCode)
  count : Option (List ℕ)
  width : Option ℕ
  height : Option ℕ
  viewpoint : Option (List ℚ)
  points : Option ℕ
  data : Option String
deriving Repr

/-- Empty parse state. -/
def ParseState.init : ParseState :=
  ⟨none, none, none, none, none, none, none, none, none, none⟩

/-- Cast of a token kept as a string (FIELDS, DATA, VERSION). -/
def asStr : Token → Option String
  | .ts s => some s
  | _ => none

/-- Cast of a token to an integer (SIZE, COUNT, WIDTH, HEIGHT, POINTS);
a non-numeric token is a malformed-header failure. -/
def asNat : Token → Option ℕ
  | .tn n => some n
  | _ => none

/-- Cast of a token to a float (VIEWPOINT); integer literals are accepted. -/
def asQ : Token → Option ℚ
  | .tn n => some (n : ℚ)
  | .tq q => some q
  | _ => none

/-- Cast of a TYPE token. -/
def asType : Token → Option TypeCode
  | .ts s => typeOfStr s
  | _ => none

/-- Modelled from the spec: one step of HeaderCodec.parse — comments are
ignored, each recognized key's tokens are cast per its field semantics,
and a failing cast is a MalformedHeader failure (section 4.2). -/
def stepLine (st : ParseState) (l : HeaderLine) : Except String ParseState :=
  match l with
  | .comment _ => .ok st
  | .entry key toks =>
    if keyIs key "VERSION" then
      match toks with
      | [.ts v] => .ok { st with version := some v }
      | _ => .error "MalformedHeader: VERSION"
    else if keyIs key "FIELDS" then
      match toks.mapM asStr with
      | some fs => .ok { st with fields := some fs }
      | none => .error "MalformedHeader: FIELDS"
    else if keyIs key "SIZE" then
      match toks.mapM asNat with
      | some ns => .ok { st with size := some ns }
      | none => .error "MalformedHeader: SIZE"
    else if keyIs key "TYPE" then
      match toks.mapM asType with
      | some ts => .ok { st with typ := some ts }
      | none => .error "MalformedHeader: TYPE"
    else if keyIs key "COUNT" then
      match toks.mapM asNat with
      | some ns => .ok { st with count := some ns }
      | none => .error "MalformedHeader: COUNT"
    else if keyIs key "WIDTH" then
      match toks with
      | [.tn n] => .ok { st with width := some n }
      | _ => .error "MalformedHeader: WIDTH"
    else if keyIs key "HEIGHT" then
      match toks with
      | [.tn n] => .ok { st with height := some n }
      | _ => .error "MalformedHeader: HEIGHT"
    else if keyIs key "VIEWPOINT" then
      match toks.mapM asQ with
      | some qs => .ok { st with viewpoint := some qs }
      | none => .error "MalformedHeader: VIEWPOINT"
    else if keyIs key "POINTS" then
      match toks with
      | [.tn n] => .ok { st with points := some n }
      | _ => .error "MalformedHeader: POINTS"
    else if keyIs key "DATA" then
      match toks with
      | [.ts d] => .ok { st with data := some d }
      | _ => .error "MalformedHeader: DATA"
    else
      .ok st

/-- Modelled from the spec: finish of HeaderCodec.parse — a missing
required key is a MalformedHeader failure, a missing COUNT defaults
every entry to 1, a missing VIEWPOINT defaults to [0,0,0,1,0,0,0], and
the array-keyed fields must agree in length (section 4.2). -/
def finalizeHeader (st : ParseState) : Except String Metadata :=
  match st.version, st.fields, st.size, st.typ, st.width, st.height, st.points, st.data with
  | some v, some fs, some sz, some ty, some w, some h, some p, some d =>
    let cnt := st.count.getD (fs.map fun _ => 1)
    let vp := st.viewpoint.getD [0, 0, 0, 1, 0, 0, 0]
    if sz.length = fs.length ∧ ty.length = fs.length ∧ cnt.length = fs.length then
      .ok ⟨v, fs, sz, ty, cnt, w, h, vp, p, d⟩
    else
      .error "MalformedHeader: array-keyed fields disagree in length"
  | _, _, _, _, _, _, _, _ => .error "MalformedHeader: missing required key"

/-- Modelled from the spec: HeaderCodec.parse over the header lines. -/
def parseHeader (lines : List HeaderLine) : Except String Metadata := do
  let st ← lines.foldlM stepLine ParseState.init
  finalizeHeader st

/-- Little-endian byte expansion of a value into exactly k bytes. -/
def leBytes : ℕ → ℕ → List ℕ
  | 0, _ => []
  | k + 1, v => v % 256 :: leBytes k (v / 256)

/-- Value of a little-endian byte list. -/
def leVal : List ℕ → ℕ
  | [] => 0
  | b :: bs => b + 256 * leVal bs

/-- Split of a list into consecutive chunks of the given lengths; none
unless the lengths exactly exhaust the list. -/
def splitInto : List ℕ → List α → Option (List (List α))
  | [], l => if l.isEmpty then some [] else none
  | n :: ns, l =>
    if n ≤ l.length then
      (splitInto ns (l.drop n)).map fun rest => l.take n :: rest
    else none

/-- Modelled from the spec: the ascii payload, one line per point, each
field's count values flattened left-to-right in field order
(section 4.3).  Token text is kept as the numeric value itself: the spec
leaves the float text format open (section 9) and requires only that
writing then reading is exact. -/
def encodeAscii (buf : List PcdRecord) : List (List ℕ) :=
  buf.map fun r => r.flatten

/-- Modelled from the spec: ascii payload decode — one line per point,
each line's tokens grouped back per field by the counts; fails when a
line does not match the metadata layout or the line count is not
points. -/
def decodeAscii (md : Metadata) (lines : List (List ℕ)) :
    Except String (List PcdRecord) :=
  if lines.length = md.points then
    match lines.mapM fun line => splitInto md.count line with
    | some recs => .ok recs
    | none => .error "PayloadLengthMismatch: ascii line does not match layout"
  else
    .error "PayloadLengthMismatch: ascii line count"

/-- Byte string of one record: for each field in order, its count values
as little-endian size-byte groups, contiguously. -/
def encodeRecordBytes (sizes : List ℕ) (r : PcdRecord) : List ℕ :=
  ((r.zip sizes).map fun vs => (vs.1.map (leBytes vs.2)).flatten).flatten

/-- Modelled from the spec: the binary payload — raw little-endian
native-width values laid out per point in field order, no padding
(section 4.3). -/
def encodeBinary (md : Metadata) (buf : List PcdRecord) : List ℕ :=
  (buf.map (encodeRecordBytes md.size)).flatten

/-- Decode of the size-byte groups of one field back into count values:
cnt consecutive groups of sz bytes each, none unless the byte string is
exactly consumed. -/
def decodeValues (sz : ℕ) : ℕ → List ℕ → Option (List ℕ)
  | 0, bytes => if bytes.isEmpty then some [] else none
  | cnt + 1, bytes =>
    if sz ≤ bytes.length then
      (decodeValues sz cnt (bytes.drop sz)).map fun rest => leVal (bytes.take sz) :: rest
    else none

/-- Decode of one record's byte string per the field sizes and counts:
one size * count byte group per field, exactly consuming the string. -/
def decodeRecord : List ℕ → List ℕ → List ℕ → Option PcdRecord
  | [], [], bytes => if bytes.isEmpty then some [] else none
  | sz :: sizes, cnt :: counts, bytes =>
    if sz * cnt ≤ bytes.length then
      (decodeValues sz cnt (bytes.take (sz * cnt))).bind fun vals =>
        (decodeRecord sizes counts (bytes.drop (sz * cnt))).map fun rest => vals :: rest
    else none
  | _, _, _ => none

/-- Decode of n consecutive records of w bytes each. -/
def decodeRecordsB (sizes counts : List ℕ) (w : ℕ) : ℕ → List ℕ → Option (List PcdRecord)
  | 0, bytes => if bytes.isEmpty then some [] else none
  | n + 1, bytes =>
    if w ≤ bytes.length then
      (decodeRecord sizes counts (bytes.take w)).bind fun r =>
        (decodeRecordsB sizes counts w n (bytes.drop w)).map fun rest => r :: rest
    else none

/-- Modelled from the spec: binary payload decode — the byte string must
be exactly points * record_width long (TruncatedPayload otherwise) and
is cut into per-record, per-field, per-value groups. -/
def decodeBinary (md : Metadata) (bytes : List ℕ) :
    Except String (List PcdRecord) :=
  match decodeRecordsB md.size md.count (recordWidth md) md.points bytes with
  | some recs => .ok recs
  | none => .error "TruncatedPayload: binary payload layout"

/-- Modelled from the spec: LZF is an external lossless byte compressor
(section 4.3 and the glossary); its algorithm is in neither the sources
nor the spec, which constrain it only to be lossless, so it is modelled
as the identity coding. -/
def lzfCompress (bs : List ℕ) : List ℕ := bs

/-- Modelled from the spec: inverse of lzfCompress. -/
def lzfDecompress (bs : List ℕ) : List ℕ := bs

/-- Column j of the buffer: the j-th field's values of every record. -/
def colOf (buf : List PcdRecord) (j : ℕ) : List (List ℕ) :=
  buf.map fun r => r.getD j []

/-- Byte string of one column: every record's values of that field,
little-endian. -/
def encodeCol (sz : ℕ) (col : List (List ℕ)) : List ℕ :=
  (col.map fun vals => (vals.map (leBytes sz)).flatten).flatten

/-- Modelled from the spec: the column-major raw layout of the
compressed encoding — all values of field 1 for every point, then all
of field 2, and so on (section 4.3). -/
def encodeColumnMajor (md : Metadata) (buf : List PcdRecord) : List ℕ :=
  ((List.range md.fields.length).map fun j =>
    encodeCol (md.size.getD j 0) (colOf buf j)).flatten

/-- Modelled from the spec: the compressed payload — compressed_size and
uncompressed_size as 32-bit little-endian integers, then the
LZF-compressed column-major data (section 4.3). -/
def encodeCompressed (md : Metadata) (buf : List PcdRecord) : List ℕ :=
  let raw := encodeColumnMajor md buf
  let comp := lzfCompress raw
  leBytes 4 comp.length ++ leBytes 4 raw.length ++ comp

/-- Decode of one column's byte string: for each of n records in turn,
that record's values of this field (sz * cnt bytes each). -/
def decodeColumn (sz cnt : ℕ) : ℕ → List ℕ → Option (List (List ℕ))
  | 0, bytes => if bytes.isEmpty then some [] else none
  | n + 1, bytes =>
    if sz * cnt ≤ bytes.length then
      (decodeValues sz cnt (bytes.take (sz * cnt))).bind fun vals =>
        (decodeColumn sz cnt n (bytes.drop (sz * cnt))).map fun rest => vals :: rest
    else none

/-- Decode of the concatenated per-field columns for npts records. -/
def decodeColumns (npts : ℕ) : List ℕ → List ℕ → List ℕ → Option (List (List (List ℕ)))
  | [], [], bytes => if bytes.isEmpty then some [] else none
  | sz :: sizes, cnt :: counts, bytes =>
    if npts * (sz * cnt) ≤ bytes.length then
      (decodeColumn sz cnt npts (bytes.take (npts * (sz * cnt)))).bind fun col =>
        (decodeColumns npts sizes counts (bytes.drop (npts * (sz * cnt)))).map fun rest =>
          col :: rest
    else none
  | _, _, _ => none

/-- De-interleave of the column-major raw bytes back into records: cut
the per-field columns, then rebuild record i from the i-th entry of
every column. -/
def decodeColumnMajor (md : Metadata) (raw : List ℕ) : Option (List PcdRecord) :=
  (decodeColumns md.points md.size md.count raw).map fun cols =>
    (List.range md.points).map fun i => cols.map fun col => col.getD i []

/-- Modelled from the spec: compressed payload decode — read the two
u32 length fields (TruncatedPayload when fewer bytes than announced are
available), decompress, check the decompressed length against both the
announced uncompressed_size and the size the metadata implies
(PayloadLengthMismatch), then de-interleave. -/
def decodeCompressed (md : Metadata) (bytes : List ℕ) :
    Except String (List PcdRecord) :=
  if 8 ≤ bytes.length then
    let compSize := leVal (bytes.take 4)
    let uncompSize := leVal ((bytes.drop 4).take 4)
    let rest := bytes.drop 8
    if compSize ≤ rest.length then
      let raw := lzfDecompress (rest.take compSize)
      if raw.length = uncompSize ∧ raw.length = md.points * recordWidth md then
        match decodeColumnMajor md raw with
        | some recs => .ok recs
        | none => .error "PayloadLengthMismatch: column layout"
      else
        .error "PayloadLengthMismatch: decompressed size"
    else
      .error "TruncatedPayload: compressed data"
  else
    .error "TruncatedPayload: compressed size header"

/-- Serialized PCD payload: text lines for ascii, a byte string for the
two binary encodings. -/
inductive EncodedBody where
  | asciiBody (lines : List (List ℕ))
  | binBody (bytes : List ℕ)
deriving DecidableEq, Repr

/-- Serialized PCD file: header lines then the payload. -/
structure EncodedPcd where
  header : List HeaderLine
  body : EncodedBody
deriving DecidableEq, Repr

/-- Modelled from the spec: PointCloud.to_bytes — re-tag the metadata
with the requested encoding (InvalidArgument unless one of the three
tags) and serialize header and payload (section 4.4). -/
def toBytes (pc : PCloud) (compression : String) : Except String EncodedPcd :=
  if compression = "ascii" ∨ compression = "binary" ∨ compression = "binary_compressed" then
    let md := { pc.md with data := compression }
    let body : EncodedBody :=
      if compression = "ascii" then .asciiBody (encodeAscii pc.buf)
      else if compression = "binary" then .binBody (encodeBinary md pc.buf)
      else .binBody (encodeCompressed md pc.buf)
    .ok ⟨serializeHeader md, body⟩
  else
    .error "InvalidArgument: unknown compression"

/-- Modelled from the spec: PointCloud.from_bytes — parse the header,
then decode the payload per the data tag (section 4.4). -/
def fromBytes (e : EncodedPcd) : Except String PCloud :=
  match parseHeader e.header with
  | .error err => .error ("InvalidPcdFile: " ++ err)
  | .ok md =>
    match e.body with
    | .asciiBody lines =>
      if md.data = "ascii" then
        (decodeAscii md lines).map fun buf => PCloud.mk md buf
      else
        .error "InvalidPcdFile: body does not match data tag"
    | .binBody bs =>
      if md.data = "binary" then
        (decodeBinary md bs).map fun buf => PCloud.mk md buf
      else if md.data = "binary_compressed" then
        (decodeCompressed md bs).map fun buf => PCloud.mk md buf
      else
        .error "InvalidPcdFile: body does not match data tag"

/-
Specification-side definitions: formulations taken from the words of the
spec and the claims, to be compared with the source-side embeddings above.
-/

/-- Specification-side form of one output row of apply_transform: the
first three components of T applied to the homogeneous vector
[x, y, z, 1], and the original intensity as the fourth column. -/
def specTransformedRow (T : List (List ℚ)) (p : RawPoint) : List ℚ :=
  [dotQ (T.getD 0 []) (homoRow p), dotQ (T.getD 1 []) (homoRow p),
   dotQ (T.getD 2 []) (homoRow p), p.intensity.val]

/-- Specification-side box-local coordinates of a translated point: when
yaw is nonzero, rotation by -yaw about the z axis, else the translated
point itself. -/
def specLocalCoords (cosF sinF : ℚ → ℚ) (yaw tx ty tz : ℚ) : ℚ × ℚ × ℚ :=
  if yaw ≠ 0 then
    (cosF (-yaw) * tx - sinF (-yaw) * ty, sinF (-yaw) * tx + cosF (-yaw) * ty, tz)
  else
    (tx, ty, tz)

/-- Specification-side box membership: after translating by minus the
center and rotating to box-local axes, all three coordinates lie within
the closed half-extent bounds. -/
def specInsideBox (cosF sinF : ℚ → ℚ) (cx cy cz len wid hgt yaw px py pz : ℚ) : Prop :=
  |(specLocalCoords cosF sinF yaw (px - cx) (py - cy) (pz - cz)).1| ≤ len / 2 ∧
  |(specLocalCoords cosF sinF yaw (px - cx) (py - cy) (pz - cz)).2.1| ≤ wid / 2 ∧
  |(specLocalCoords cosF sinF yaw (px - cx) (py - cy) (pz - cz)).2.2| ≤ hgt / 2

instance (cosF sinF : ℚ → ℚ) (cx cy cz len wid hgt yaw px py pz : ℚ) :
    Decidable (specInsideBox cosF sinF cx cy cz len wid hgt yaw px py pz) := by
  unfold specInsideBox
  infer_instance

/-- Specification-side membership of a point row in an ignore-box
dictionary (the required keys are assumed present; yaw defaults to 0). -/
def specRowInBox (cosF sinF : ℚ → ℚ) (d : List (String × ℚ)) (r : List ℚ) : Prop :=
  specInsideBox cosF sinF ((boxGet d "x").getD 0) ((boxGet d "y").getD 0)
    ((boxGet d "z").getD 0) ((boxGet d "length").getD 0) ((boxGet d "width").getD 0)
    ((boxGet d "height").getD 0) ((boxGet d "yaw").getD 0)
    (r.getD 0 0) (r.getD 1 0) (r.getD 2 0)

instance (cosF sinF : ℚ → ℚ) (d : List (String × ℚ)) (r : List ℚ) :
    Decidable (specRowInBox cosF sinF d r) := by
  unfold specRowInBox
  infer_instance

/-
Concrete sample data: the three-point cloud of the spec's end-to-end
example, identity and malformed transforms, and small inputs used to
instantiate the theorems.
-/

/-- Sample cloud columns: the spec's end-to-end example points
(0, 0.5, -1, 1), (1.5, -0.25, 0, 2), (3, 2, 0.75, 0.5). -/
def sampleCols : PCData :=
  ⟨some [.fin 0, .fin (3 / 2), .fin 3], some [.fin (1 / 2), .fin (-1 / 4), .fin 2],
   some [.fin (-1), .fin 0, .fin (3 / 4)], some [.fin 1, .fin 2, .fin (1 / 2)]⟩

/-- Structured records of the sample cloud. -/
def sampleRecs : List StructuredPoint :=
  [⟨0, 1 / 2, -1, 1⟩, ⟨3 / 2, -1 / 4, 0, 2⟩, ⟨3, 2, 3 / 4, 1 / 2⟩]

/-- Identity transform as a float matrix. -/
def idT : List (List FV) :=
  [[.fin 1, .fin 0, .fin 0, .fin 0], [.fin 0, .fin 1, .fin 0, .fin 0],
   [.fin 0, .fin 0, .fin 1, .fin 0], [.fin 0, .fin 0, .fin 0, .fin 1]]

/-- Malformed transform: wrong shape (1x1). -/
def badShapeT : List (List FV) := [[.fin 1]]

/-- Malformed transform: right shape, one NaN entry. -/
def nanT : List (List FV) :=
  [[.fin 1, .fin 0, .fin 0, .fin 0], [.fin 0, .nan, .fin 0, .fin 0],
   [.fin 0, .fin 0, .fin 1, .fin 0], [.fin 0, .fin 0, .fin 0, .fin 1]]

/-- Decoder that yields the sample cloud for any bytes. -/
def decSample : Bytes → Except String PCData := fun _ => .ok sampleCols

/-- Decoder that fails for any bytes. -/
def decBroken : Bytes → Except String PCData := fun _ => .error "broken payload"

/-- A well-formed fuse_pointclouds input: two valid entries. -/
def objsValid : List PyVal :=
  [.pytuple [.pystr "top", .pybytes 0, .pylist []],
   .pytuple [.pystr "left", .pybytes 1, .pylist []]]

/-- A fuse_pointclouds input whose second entry has length 2. -/
def objsInvalid : List PyVal :=
  [.pytuple [.pystr "top", .pybytes 0, .pylist []],
   .pytuple [.pystr "left", .pybytes 1]]

/-- Unit box centered at the origin with full extents 2 and no yaw key
(so yaw defaults to 0). -/
def unitBox : List (String × ℚ) :=
  [("x", 0), ("y", 0), ("z", 0), ("length", 2), ("width", 2), ("height", 2)]

/-- A second box, disjoint from unitBox, centered at (10, 0, 0). -/
def farBox : List (String × ℚ) :=
  [("x", 10), ("y", 0), ("z", 0), ("length", 2), ("width", 2), ("height", 2), ("yaw", 0)]

/-- Sample metadata of the codec witness (the spec's end-to-end layout
with an intensity field). -/
def mdSample : Metadata :=
  ⟨"0.7", ["x", "y", "z", "intensity"], [4, 4, 4, 4], [.F, .F, .F, .F], [1, 1, 1, 1],
   3, 1, [0, 0, 0, 1, 0, 0, 0], 3, "binary_compressed"⟩

/-- Sample cloud of the codec witness: three points of one 4-byte slot
per field. -/
def pcSample : PCloud :=
  ⟨mdSample,
   [[[10], [999999], [3], [4]], [[5], [6], [7], [8]], [[4294967295], [0], [11], [12]]]⟩

/-
Helper lemmas.
-/

theorem zipWith_map_left_self (f : α → β) (g : β → α → γ) (l : List α) :
    List.zipWith g (l.map f) l = l.map fun a => g (f a) a := by
  induction l with
  | nil => rfl
  | cons a l ih => simp [ih]

theorem filter_isEmpty_false_of_mem {p : α → Bool} {l : List α}
    (h : ∃ a ∈ l, p a = true) : (l.filter p).isEmpty = false := by
  obtain ⟨a, ha, hpa⟩ := h
  have : a ∈ l.filter p := List.mem_filter.mpr ⟨ha, hpa⟩
  cases hf : l.filter p with
  | nil => rw [hf] at this; cases this
  | cons b t => rfl

/-
Claim C2: rows of apply_transform.
-/

/-- Claim C2: for every input to apply_transform in which at least one
row has all of x, y, z, intensity finite, and every 4x4 transform T, the
result is an Nx4 array whose rows are exactly the surviving finite rows:
columns 0-2 are the first three components of T applied to [x, y, z, 1],
and column 3 equals the row's original intensity value, never the
transformed homogeneous fourth component. -/
theorem apply_transform_rows (pts : List RawPoint) (T : List (List ℚ))
    (hT : T.length = 4) (hv : ∃ p ∈ pts, p.isValid = true) :
    applyTransformToPoints pts T =
      .ok ⟨(pts.filter RawPoint.isValid).map (specTransformedRow T), 4⟩ := by
  rcases T with _ | ⟨t0, _ | ⟨t1, _ | ⟨t2, _ | ⟨t3, _ | ⟨t4, T⟩⟩⟩⟩⟩ <;>
    simp only [List.length] at hT <;> try omega
  unfold applyTransformToPoints
  rw [filter_isEmpty_false_of_mem hv]
  simp only [Bool.false_eq_true, if_false, zipWith_map_left_self]
  have hrow : ∀ p : RawPoint,
      (matVec [t0, t1, t2, t3] (homoRow p)).set 3 p.intensity.val =
        specTransformedRow [t0, t1, t2, t3] p := fun p => rfl
  simp [hrow]

/-- Witness for claim C2 at a concrete one-point input with the identity
transform. -/
theorem apply_transform_rows_witness :
    applyTransformToPoints [⟨.fin 0, .fin (1 / 2), .fin (-1), .fin 1⟩] (matQ idT) =
      .ok ⟨([⟨.fin 0, .fin (1 / 2), .fin (-1), .fin 1⟩].filter RawPoint.isValid).map
        (specTransformedRow (matQ idT)), 4⟩ :=
  apply_transform_rows _ _ (by decide) (by decide)

/-
Claim C7: non-finite rows are absent; all-non-finite input fails.
-/

/-- Claim C7: every point with any of x, y, z, intensity non-finite is
absent from apply_transform's output (the output is a function of the
finite rows alone), and when all points are non-finite the call fails
with the no-valid-points error instead of returning an array. -/
theorem apply_transform_drops_nonfinite (pts : List RawPoint) (T : List (List ℚ)) :
    applyTransformToPoints pts T =
      applyTransformToPoints (pts.filter RawPoint.isValid) T ∧
    ((∀ p ∈ pts, p.isValid = false) →
      applyTransformToPoints pts T =
        .error "No valid points found after filtering NaN values") ∧
    (∀ out, applyTransformToPoints pts T = .ok out →
      out.rows.length = (pts.filter RawPoint.isValid).length) := by
  refine ⟨?_, ?_, ?_⟩
  · unfold applyTransformToPoints
    rw [List.filter_filter]
    simp
  · intro h
    have : pts.filter RawPoint.isValid = [] := by
      apply List.filter_eq_nil_iff.mpr
      intro a ha
      simp [h a ha]
    unfold applyTransformToPoints
    rw [this]
    rfl
  · intro out h
    unfold applyTransformToPoints at h
    by_cases he : (pts.filter RawPoint.isValid).isEmpty
    · rw [he] at h; cases h
    · rw [Bool.not_eq_true] at he
      rw [he] at h
      simp only [Bool.false_eq_true, if_false, Except.ok.injEq] at h
      rw [← h]
      simp [List.length_zipWith]

/-- Witness for claim C7: one NaN row and one finite row; the NaN row is
absent, and an all-NaN input fails. -/
theorem apply_transform_drops_nonfinite_witness :
    (applyTransformToPoints [⟨.nan, .fin 0, .fin 0, .fin 0⟩, ⟨.fin 2, .fin 3, .fin 4, .fin 5⟩]
        (matQ idT) =
      applyTransformToPoints
        ([⟨.nan, .fin 0, .fin 0, .fin 0⟩, ⟨.fin 2, .fin 3, .fin 4, .fin 5⟩].filter
          RawPoint.isValid) (matQ idT)) ∧
    applyTransformToPoints [⟨.nan, .fin 0, .fin 0, .fin 0⟩, ⟨.posInf, .fin 3, .fin 4, .fin 5⟩]
        (matQ idT) =
      .error "No valid points found after filtering NaN values" :=
  ⟨(apply_transform_drops_nonfinite _ _).1,
   (apply_transform_drops_nonfinite _ _).2.1 (by decide)⟩

/-
Claims C5 and C6: box containment and the ignore-area filter.
-/

theorem pointIn3dBox_ok (cosF sinF : ℚ → ℚ) (points : Arr2) (d : List (String × ℚ))
    (h3 : 3 ≤ points.ncols)
    (hks : ∀ k ∈ requiredBoxKeys, (boxGet d k).isSome = true) :
    pointIn3dBox cosF sinF points d =
      .ok (points.rows.map fun r => decide (specRowInBox cosF sinF d r)) := by
  obtain ⟨cx, hcx⟩ := Option.isSome_iff_exists.mp (hks "x" (by simp [requiredBoxKeys]))
  obtain ⟨cy, hcy⟩ := Option.isSome_iff_exists.mp (hks "y" (by simp [requiredBoxKeys]))
  obtain ⟨cz, hcz⟩ := Option.isSome_iff_exists.mp (hks "z" (by simp [requiredBoxKeys]))
  obtain ⟨len, hlen⟩ :=
    Option.isSome_iff_exists.mp (hks "length" (by simp [requiredBoxKeys]))
  obtain ⟨wid, hwid⟩ := Option.isSome_iff_exists.mp (hks "width" (by simp [requiredBoxKeys]))
  obtain ⟨hgt, hhgt⟩ :=
    Option.isSome_iff_exists.mp (hks "height" (by simp [requiredBoxKeys]))
  unfold pointIn3dBox
  rw [if_neg (by omega), hcx, hcy, hcz, hlen, hwid, hhgt]
  dsimp only
  by_cases hyaw : (boxGet d "yaw").getD 0 = 0
  · rw [if_neg (not_not_intro hyaw)]
    apply congrArg
    rw [List.map_map]
    apply List.map_congr_left
    intro r _
    simp [specRowInBox, specInsideBox, specLocalCoords, hcx, hcy, hcz, hlen, hwid, hhgt,
      hyaw, Function.comp, Bool.and_assoc]
  · rw [if_pos hyaw]
    rw [List.map_map, List.map_map]
    apply congrArg
    apply List.map_congr_left
    intro r _
    simp [specRowInBox, specInsideBox, specLocalCoords, hcx, hcy, hcz, hlen, hwid, hhgt,
      hyaw, Function.comp, Bool.and_assoc]

/-- Claim C5: for every point set and every ignore box (required keys
present), point_in_box classifies a point as inside iff, after
translating by minus the box center and (when yaw is nonzero) rotating
by minus yaw about the z axis, |x_local| <= length/2 and
|y_local| <= width/2 and |z_local| <= height/2; in particular a point
lying exactly on a box face (x_local = length/2) is classified inside
(closed boundary). -/
theorem point_in_box_closed_boundary :
    (∀ (cosF sinF : ℚ → ℚ) (points : Arr2) (d : List (String × ℚ)),
      3 ≤ points.ncols → (∀ k ∈ requiredBoxKeys, (boxGet d k).isSome = true) →
      pointIn3dBox cosF sinF points d =
        .ok (points.rows.map fun r => decide (specRowInBox cosF sinF d r))) ∧
    pointIn3dBox (fun _ => 1) (fun _ => 0) ⟨[[1, 0, 0]], 3⟩ unitBox = .ok [true] := by
  refine ⟨pointIn3dBox_ok, ?_⟩
  rw [pointIn3dBox_ok (fun _ => 1) (fun _ => 0) ⟨[[1, 0, 0]], 3⟩ unitBox (by decide)
    (by decide)]
  norm_num [specRowInBox, specInsideBox, specLocalCoords,
    show boxGet unitBox "x" = some 0 from rfl, show boxGet unitBox "y" = some 0 from rfl,
    show boxGet unitBox "z" = some 0 from rfl,
    show boxGet unitBox "length" = some 2 from rfl,
    show boxGet unitBox "width" = some 2 from rfl,
    show boxGet unitBox "height" = some 2 from rfl,
    show boxGet unitBox "yaw" = none from rfl]

/-- Witness for claim C5 at a concrete point set and box. -/
theorem point_in_box_closed_boundary_witness :
    pointIn3dBox (fun _ => 1) (fun _ => 0) ⟨[[1, 2, 3], [0, 0, 0]], 3⟩ farBox =
      .ok ([[1, 2, 3], [0, 0, 0]].map fun r =>
        decide (specRowInBox (fun _ => 1) (fun _ => 0) farBox r)) :=
  point_in_box_closed_boundary.1 (fun _ => 1) (fun _ => 0) ⟨[[1, 2, 3], [0, 0, 0]], 3⟩
    farBox (by decide) (by decide)

theorem zipWith_or_map_map (f g : α → Bool) (l : List α) :
    List.zipWith or (l.map f) (l.map g) = l.map fun a => f a || g a := by
  induction l with
  | nil => rfl
  | cons a l ih => simp only [List.map, List.zipWith, ih]

theorem ignoreMask_foldl (cosF sinF : ℚ → ℚ) (points : Arr2)
    (boxes : List (List (String × ℚ))) (f : List ℚ → Bool)
    (h3 : 3 ≤ points.ncols)
    (hv : ∀ b ∈ boxes, ∀ k ∈ requiredBoxKeys, (boxGet b k).isSome = true) :
    (boxes.map PyVal.pybox).foldl (ignoreMaskStep cosF sinF points)
        (.ok (points.rows.map f)) =
      .ok (points.rows.map fun r =>
        f r || decide (∃ b ∈ boxes, specRowInBox cosF sinF b r)) := by
  induction boxes generalizing f with
  | nil => simp
  | cons b bs ih =>
    have hb := hv b (by simp)
    have hbs : ∀ x ∈ bs, ∀ k ∈ requiredBoxKeys, (boxGet x k).isSome = true :=
      fun x hx => hv x (by simp [hx])
    simp only [List.map, List.foldl]
    have hstep : ignoreMaskStep cosF sinF points (.ok (points.rows.map f)) (.pybox b) =
        .ok (points.rows.map fun r => f r || decide (specRowInBox cosF sinF b r)) := by
      unfold ignoreMaskStep
      dsimp only
      rw [if_neg (not_not_intro hb), pointIn3dBox_ok cosF sinF points b h3 hb]
      dsimp only
      rw [zipWith_or_map_map]
    rw [hstep, ih _ hbs]
    apply congrArg
    apply List.map_congr_left
    intro r _
    simp [Bool.or_assoc]

theorem filter_zip_map_snd (g : α → Bool) (l : List α) :
    ((l.zip (l.map g)).filter fun rm => rm.2 = false).map Prod.fst =
      l.filter fun a => !g a := by
  induction l with
  | nil => rfl
  | cons a l ih =>
    have ih' : (List.filter (fun rm => !rm.2) (List.zipWith Prod.mk l (l.map g))).map
        Prod.fst = l.filter fun a => !g a := by
      simpa using ih
    cases hga : g a <;> simp [List.zip, List.filter, hga, ih']

/-- Claim C6: filter_ignore_areas removes exactly the points belonging
to the union (logical OR of membership) of the boxes and keeps every
point belonging to no box; with an empty box list it is the identity. -/
theorem filter_ignore_areas_union (cosF sinF : ℚ → ℚ) (points : Arr2) :
    filterPointsByIgnoreAreas cosF sinF points [] = .ok points ∧
    (∀ boxes : List (List (String × ℚ)), boxes ≠ [] → 3 ≤ points.ncols →
      (∀ b ∈ boxes, ∀ k ∈ requiredBoxKeys, (boxGet b k).isSome = true) →
      filterPointsByIgnoreAreas cosF sinF points (boxes.map PyVal.pybox) =
        .ok ⟨points.rows.filter fun r =>
          !decide (∃ b ∈ boxes, specRowInBox cosF sinF b r), points.ncols⟩) := by
  constructor
  · rfl
  · intro boxes hne h3 hv
    unfold filterPointsByIgnoreAreas
    rw [if_neg (by simp [hne]), if_neg (by omega)]
    rw [ignoreMask_foldl cosF sinF points boxes (fun _ => false) h3 hv]
    simp only [Bool.false_or]
    rw [filter_zip_map_snd]

/-- Witness for claim C6: two disjoint boxes, a three-point set. -/
theorem filter_ignore_areas_union_witness :
    filterPointsByIgnoreAreas (fun _ => 1) (fun _ => 0)
        ⟨[[0, 0, 0, 7], [10, 0, 0, 8], [5, 5, 5, 9]], 4⟩
        ([unitBox, farBox].map PyVal.pybox) =
      .ok ⟨[[0, 0, 0, 7], [10, 0, 0, 8], [5, 5, 5, 9]].filter fun r =>
        !decide (∃ b ∈ [unitBox, farBox],
          specRowInBox (fun _ => 1) (fun _ => 0) b r), 4⟩ :=
  (filter_ignore_areas_union (fun _ => 1) (fun _ => 0)
      ⟨[[0, 0, 0, 7], [10, 0, 0, 8], [5, 5, 5, 9]], 4⟩).2
    [unitBox, farBox] (by decide) (by decide) (by decide)

/-
Claim C10: the structured-array conversion rejects an empty input, so
fused clouds are never empty.
-/

theorem structured_ok_ne_nil {a : Arr2} {sa : List StructuredPoint}
    (h : numpyArrayToStructuredArray a = .ok sa) : sa ≠ [] := by
  unfold numpyArrayToStructuredArray at h
  split at h
  · cases h
  · split at h
    · cases h
    · rename_i hz
      injection h with h
      intro hnil
      rw [hnil] at h
      have hr : a.rows = [] := List.map_eq_nil_iff.mp h
      apply hz
      rw [hr]
      simp

theorem fusionPcdBytes_ok_inv {decode : Bytes → Except String PCData}
    {datasBytes : List (String × Bytes)} {calib : List (String × List (List FV))}
    {compression : String} {out : EncodedOut}
    (h : fusionPcdBytes decode datasBytes calib compression = .ok out) :
    ∃ a, numpyArrayToStructuredArray a = .ok out.recs := by
  unfold fusionPcdBytes at h
  split at h
  · cases h
  · split at h
    · cases h
    · split at h
      · cases h
      · split at h
        · cases h
        · dsimp only at h
          split at h
          · cases h
          · split at h
            · cases h
            · rename_i sa hsa
              injection h with h
              rw [← h]
              exact ⟨_, hsa⟩

theorem fusionPcd_ok_inv {fE : String → Bool} {lP : String → Except String PCData}
    {datas : List (String × String)} {calib : List (String × List (List FV))}
    {out : EncodedOut}
    (h : fusionPcd fE lP datas calib = .ok out) :
    ∃ a, numpyArrayToStructuredArray a = .ok out.recs := by
  unfold fusionPcd at h
  split at h
  · cases h
  · split at h
    · cases h
    · split at h
      · cases h
      · split at h
        · cases h
        · dsimp only at h
          split at h
          · cases h
          · split at h
            · cases h
            · rename_i sa hsa
              injection h with h
              rw [← h]
              exact ⟨_, hsa⟩

theorem fusePointclouds_ok_inv {cosF sinF : ℚ → ℚ}
    {decode : Bytes → Except String PCData} {lidarObjs : PyVal} {out : EncodedOut}
    (h : fusePointclouds cosF sinF decode lidarObjs = .ok out) :
    ∃ a, numpyArrayToStructuredArray a = .ok out.recs := by
  unfold fusePointclouds at h
  split at h
  · split at h
    · cases h
    · split at h
      · cases h
      · dsimp only at h
        split at h
        · cases h
        · split at h
          · cases h
          · rename_i sa hsa
            injection h with h
            rw [← h]
            exact ⟨_, hsa⟩
  · cases h

/-- Claim C10: numpy_array_to_structured_array rejects an empty input —
for every 2-D 4-column array with zero rows it raises a ValueError
rather than producing an empty buffer — so every fused PointCloud
returned by the fusion APIs contains at least one point. -/
theorem structured_array_rejects_empty :
    (∀ a : Arr2, a.ncols = 4 → a.rows = [] →
      numpyArrayToStructuredArray a = .error "arr cannot be empty") ∧
    (∀ (cosF sinF : ℚ → ℚ) (decode : Bytes → Except String PCData) (objs : PyVal)
      (out : EncodedOut), fusePointclouds cosF sinF decode objs = .ok out →
        out.recs ≠ []) ∧
    (∀ (decode : Bytes → Except String PCData) (datasBytes : List (String × Bytes))
      (calib : List (String × List (List FV))) (compression : String) (out : EncodedOut),
      fusionPcdBytes decode datasBytes calib compression = .ok out → out.recs ≠ []) ∧
    (∀ (fE : String → Bool) (lP : String → Except String PCData)
      (datas : List (String × String)) (calib : List (String × List (List FV)))
      (out : EncodedOut), fusionPcd fE lP datas calib = .ok out → out.recs ≠ []) := by
  refine ⟨?_, ?_, ?_, ?_⟩
  · intro a h4 hnil
    unfold numpyArrayToStructuredArray
    rw [if_neg (by rw [h4]; exact fun hc => hc rfl), if_pos (by rw [hnil]; simp)]
  · intro cosF sinF decode objs out h
    obtain ⟨a, ha⟩ := fusePointclouds_ok_inv h
    exact structured_ok_ne_nil ha
  · intro decode datasBytes calib compression out h
    obtain ⟨a, ha⟩ := fusionPcdBytes_ok_inv h
    exact structured_ok_ne_nil ha
  · intro fE lP datas calib out h
    obtain ⟨a, ha⟩ := fusionPcd_ok_inv h
    exact structured_ok_ne_nil ha

/-- Witness for claim C10: the empty 0x4 array is rejected. -/
theorem structured_array_rejects_empty_witness :
    numpyArrayToStructuredArray ⟨[], 4⟩ = .error "arr cannot be empty" :=
  structured_array_rejects_empty.1 ⟨[], 4⟩ rfl rfl

/-
Claim C3: malformed calibration transforms and the fusion calls.
The source validates every used calibration transform up front and
raises immediately, so a single malformed transform aborts the whole
fusion instead of being tolerated.
-/

theorem validateTransformMatrix_error_msgs {m : List (List FV)} {e : String}
    (h : validateTransformMatrix m = .error e) :
    e = "Transform must be a 4x4 matrix" ∨
      e = "Transform matrix contains invalid values (NaN or Inf)" := by
  unfold validateTransformMatrix at h
  split at h
  · injection h with h
    exact Or.inl h.symm
  · split at h
    · injection h with h
      exact Or.inr h.symm
    · cases h

/-- Counterexample to claim C3: with three sensors whose bytes all
decode to the sample cloud and exactly one malformed calibration
transform (wrong shape), fusion_pcd_bytes raises the transform
validation error instead of succeeding with the other two sensors; with
all three transforms malformed it raises the same transform error, not
the no-valid-point-clouds error. -/
theorem fusion_malformed_transform_counterexample :
    fusionPcdBytes decSample [("front", 0), ("left", 1), ("right", 2)]
        [("front", idT), ("left", badShapeT), ("right", idT)] "binary_compressed" =
      .error "Transform must be a 4x4 matrix" ∧
    fusionPcdBytes decSample [("front", 0), ("left", 1), ("right", 2)]
        [("front", badShapeT), ("left", nanT), ("right", badShapeT)] "binary_compressed" =
      .error "Transform must be a 4x4 matrix" ∧
    "Transform must be a 4x4 matrix" ≠ "No valid point clouds to fuse" :=
  ⟨by decide, by decide, by decide⟩

/-- Claim C3 (amended): a malformed calibration transform (wrong shape
or NaN/Inf) for any sensor present in the data causes the whole fusion
call — fusion_pcd_bytes and fusion_pcd alike — to fail up front with the
transform validation error, independently of the sensor payloads; the
no-valid-point-clouds error is never the outcome of a malformed
transform. -/
theorem fusion_rejects_malformed_transform (datasBytes : List (String × Bytes))
    (calib : List (String × List (List FV))) (compression : String)
    (hc : compression = "ascii" ∨ compression = "binary" ∨
      compression = "binary_compressed")
    (hd : datasBytes.isEmpty = false) (hcal : calib.isEmpty = false)
    (hcov : ∀ sd ∈ datasBytes, (calib.lookup sd.1).isSome = true)
    (hbad : ∃ st ∈ calib, (datasBytes.map Prod.fst).contains st.1 = true ∧
      validateTransformMatrix st.2 ≠ .ok ()) :
    ∃ e, (e = "Transform must be a 4x4 matrix" ∨
        e = "Transform matrix contains invalid values (NaN or Inf)") ∧
      (∀ decode, fusionPcdBytes decode datasBytes calib compression = .error e) ∧
      (∀ (fE : String → Bool) (lP : String → Except String PCData)
        (datas : List (String × String)), datas.map Prod.fst = datasBytes.map Prod.fst →
        datas.isEmpty = false → fusionPcd fE lP datas calib = .error e) := by
  obtain ⟨st, hst, hmem, hval⟩ := hbad
  have hne : firstTransformError (datasBytes.map Prod.fst) calib ≠ none := by
    intro hnone
    have hall := List.findSome?_eq_none_iff.mp hnone st hst
    rw [if_pos hmem] at hall
    cases hv : validateTransformMatrix st.2 with
    | error e => rw [hv] at hall; cases hall
    | ok u => cases u; exact hval hv
  obtain ⟨e, he⟩ := Option.ne_none_iff_exists.mp hne
  have he := he.symm
  have hemsg : e = "Transform must be a 4x4 matrix" ∨
      e = "Transform matrix contains invalid values (NaN or Inf)" := by
    obtain ⟨st2, _, hf⟩ := List.exists_of_findSome?_eq_some he
    by_cases hmem2 : (datasBytes.map Prod.fst).contains st2.1 = true
    · rw [if_pos hmem2] at hf
      cases hv : validateTransformMatrix st2.2 with
      | error e2 =>
        rw [hv] at hf
        injection hf with hf
        rw [← hf]
        exact validateTransformMatrix_error_msgs hv
      | ok u => rw [hv] at hf; cases hf
    · rw [if_neg hmem2] at hf
      cases hf
  refine ⟨e, hemsg, ?_, ?_⟩
  · intro decode
    unfold fusionPcdBytes
    rw [if_neg (not_not_intro hc), if_neg (by simp [hd, hcal]),
      if_neg (not_not_intro hcov), he]
  · intro fE lP datas hkeys hde
    have hcov2 : ∀ sp ∈ datas, (calib.lookup sp.1).isSome = true := by
      intro sp hsp
      have h1 : sp.1 ∈ datas.map Prod.fst := List.mem_map_of_mem Prod.fst hsp
      rw [hkeys] at h1
      obtain ⟨sd, hsd, hfst⟩ := List.mem_map.mp h1
      rw [← hfst]
      exact hcov sd hsd
    unfold fusionPcd
    rw [if_neg (by simp [hde, hcal]), if_neg (not_not_intro hcov2), hkeys, he]

/-- Witness for the amended claim C3 at the concrete three-sensor input
with one malformed transform. -/
theorem fusion_rejects_malformed_transform_witness :
    ∃ e, (e = "Transform must be a 4x4 matrix" ∨
        e = "Transform matrix contains invalid values (NaN or Inf)") ∧
      (∀ decode, fusionPcdBytes decode [("front", 0), ("left", 1), ("right", 2)]
        [("front", idT), ("left", badShapeT), ("right", idT)] "binary_compressed" =
          .error e) ∧
      (∀ (fE : String → Bool) (lP : String → Except String PCData)
        (datas : List (String × String)),
        datas.map Prod.fst = [("front", (0 : Bytes)), ("left", 1), ("right", 2)].map
          Prod.fst →
        datas.isEmpty = false →
        fusionPcd fE lP datas [("front", idT), ("left", badShapeT), ("right", idT)] =
          .error e) :=
  fusion_rejects_malformed_transform [("front", 0), ("left", 1), ("right", 2)]
    [("front", idT), ("left", badShapeT), ("right", idT)] "binary_compressed"
    (Or.inr (Or.inr rfl)) (by decide) (by decide) (by decide)
    ⟨("left", badShapeT), by decide, by decide, by decide⟩

/-
Claims C4 and C9: the per-sensor tolerance and the up-front validation
of fuse_pointclouds.
-/

theorem validate_none_of_asTriple {i : ℕ} {obj : PyVal} {t : String × Bytes × List PyVal}
    (h : asTriple obj = some t) : validateLidarObj i obj = none := by
  unfold asTriple at h
  split at h
  · rfl
  · rfl
  · cases h

theorem asTriple_isSome_of_validate_none {i : ℕ} {obj : PyVal}
    (h : validateLidarObj i obj = none) : (asTriple obj).isSome = true := by
  unfold validateLidarObj at h
  cases obj with
  | pytuple xs =>
    match xs, h with
    | [c, b, a], h => ?_
    | [], h => cases h
    | [c], h => cases h
    | [c, b], h => cases h
    | c :: b :: a :: d :: t, h => cases h
    dsimp only at h
    split at h
    · cases h
    · split at h
      · cases h
      · split at h
        · cases h
        · rename_i hc hb ha
          rw [Bool.not_eq_false] at hc hb ha
          cases c <;> cases hc
          cases b <;> cases hb
          cases a <;> cases ha
          rfl
  | pylist xs =>
    match xs, h with
    | [c, b, a], h => ?_
    | [], h => cases h
    | [c], h => cases h
    | [c, b], h => cases h
    | c :: b :: a :: d :: t, h => cases h
    dsimp only at h
    split at h
    · cases h
    · split at h
      · cases h
      · split at h
        · cases h
        · rename_i hc hb ha
          rw [Bool.not_eq_false] at hc hb ha
          cases c <;> cases hc
          cases b <;> cases hb
          cases a <;> cases ha
          rfl
  | pystr s => cases h
  | pybytes b => cases h
  | pybox d => cases h
  | pynone => cases h

theorem sensorRowsE_some_ne_nil {cosF sinF : ℚ → ℚ}
    {decode : Bytes → Except String PCData} {b : Bytes} {areas : List PyVal} {a : Arr2}
    (h : sensorRowsE cosF sinF decode b areas = .ok (some a)) : a.rows ≠ [] := by
  unfold sensorRowsE at h
  split at h
  · cases h
  · split at h
    · cases h
    · split at h
      · injection h with h; cases h
      · split at h
        · cases h
        · split at h
          · injection h with h; cases h
          · rename_i hne
            injection h with h
            injection h with h
            rw [← h]
            intro hnil
            rw [hnil] at hne
            exact hne rfl

theorem sensorRows_some_ne_nil {cosF sinF : ℚ → ℚ}
    {decode : Bytes → Except String PCData} {obj : PyVal} {a : Arr2}
    (h : sensorRows cosF sinF decode obj = some a) : a.rows ≠ [] := by
  unfold sensorRows at h
  split at h
  · cases h
  · split at h
    · rename_i hE
      rw [h] at hE
      exact sensorRowsE_some_ne_nil hE
    · cases h

theorem numpy_error_msgs {a : Arr2} {e : String}
    (h : numpyArrayToStructuredArray a = .error e) :
    e = "Expected a Nx4 numpy array" ∨ e = "arr cannot be empty" := by
  unfold numpyArrayToStructuredArray at h
  split at h
  · injection h with h
    exact Or.inl h.symm
  · split at h
    · injection h with h
      exact Or.inr h.symm
    · cases h

/-- Claim C4: in fuse_pointclouds (over well-typed entries), a failure
while decoding or processing one sensor's bytes is converted into a
skipped outcome for that sensor only and never aborts the whole fusion:
the call raises the no-valid-point-clouds error exactly when every
sensor either failed or contributed zero points after filtering, and
succeeds whenever at least one sensor contributes rows. -/
theorem fuse_pointclouds_partial_failure (cosF sinF : ℚ → ℚ)
    (decode : Bytes → Except String PCData) (objs : List PyVal)
    (hne : objs ≠ [])
    (hvalid : ∀ obj ∈ objs, (asTriple obj).isSome = true) :
    (fusePointclouds cosF sinF decode (.pylist objs) =
        .error "No valid point clouds to fuse" ↔
      ∀ obj ∈ objs, sensorRows cosF sinF decode obj = none) ∧
    ((∃ obj ∈ objs, sensorRows cosF sinF decode obj ≠ none) →
      ∃ out, fusePointclouds cosF sinF decode (.pylist objs) = .ok out ∧
        out.recs = ((objs.filterMap (sensorRows cosF sinF decode)).map
          Arr2.rows).flatten.map
          (fun r => ⟨r.getD 0 0, r.getD 1 0, r.getD 2 0, r.getD 3 0⟩) ∧
        out.compression = "binary_compressed") := by
  have hval : objs.enum.findSome? (fun io => validateLidarObj io.1 io.2) = none := by
    apply List.findSome?_eq_none_iff.mpr
    intro io hio
    have hmem := List.snd_mem_of_mem_enum hio
    obtain ⟨t, ht⟩ := Option.isSome_iff_exists.mp (hvalid io.2 hmem)
    exact validate_none_of_asTriple ht
  unfold fusePointclouds
  dsimp only
  rw [if_neg (by simp [hne]), hval]
  dsimp only
  constructor
  · constructor
    · intro h
      split at h
      · rename_i hempty
        exact List.filterMap_eq_nil_iff.mp (List.isEmpty_iff.mp hempty)
      · split at h
        · rename_i e' he'
          injection h with h
          rw [h] at he'
          rcases numpy_error_msgs he' with h1 | h1 <;> exact absurd h1 (by decide)
        · cases h
    · intro h
      rw [if_pos (by rw [List.isEmpty_iff]; exact List.filterMap_eq_nil_iff.mpr h)]
  · intro ⟨obj, hobj, hsome⟩
    have hfm : objs.filterMap (sensorRows cosF sinF decode) ≠ [] := by
      intro hnil
      exact hsome (List.filterMap_eq_nil_iff.mp hnil obj hobj)
    rw [if_neg (by simp only [List.isEmpty_iff]; exact hfm)]
    have hflat : ((objs.filterMap (sensorRows cosF sinF decode)).map
        Arr2.rows).flatten ≠ [] := by
      obtain ⟨a, ha⟩ := Option.ne_none_iff_exists.mp hsome
      have haf : a ∈ objs.filterMap (sensorRows cosF sinF decode) :=
        List.mem_filterMap.mpr ⟨obj, hobj, ha.symm⟩
      intro hnil
      have := List.flatten_eq_nil_iff.mp hnil a.rows (List.mem_map_of_mem Arr2.rows haf)
      exact sensorRows_some_ne_nil ha.symm this
    have hnum : numpyArrayToStructuredArray
        ⟨((objs.filterMap (sensorRows cosF sinF decode)).map Arr2.rows).flatten, 4⟩ =
        .ok (((objs.filterMap (sensorRows cosF sinF decode)).map Arr2.rows).flatten.map
          (fun r => ⟨r.getD 0 0, r.getD 1 0, r.getD 2 0, r.getD 3 0⟩)) := by
      unfold numpyArrayToStructuredArray
      rw [if_neg (by intro hc; exact hc rfl), if_neg (by
        simp only [Nat.mul_eq_zero]
        push_neg
        refine ⟨fun h0 => hflat (List.length_eq_zero.mp h0), by omega⟩)]
    rw [hnum]
    exact ⟨_, rfl, rfl, rfl⟩

/-- Witness for claim C4: two valid entries whose bytes decode to the
sample cloud; the fusion succeeds with the concatenated rows. -/
theorem fuse_pointclouds_partial_failure_witness :
    ∃ out, fusePointclouds id id decSample (.pylist objsValid) = .ok out ∧
      out.recs = ((objsValid.filterMap (sensorRows id id decSample)).map
        Arr2.rows).flatten.map
        (fun r => ⟨r.getD 0 0, r.getD 1 0, r.getD 2 0, r.getD 3 0⟩) ∧
      out.compression = "binary_compressed" :=
  (fuse_pointclouds_partial_failure id id decSample objsValid (by simp [objsValid])
      (by decide)).2
    ⟨.pytuple [.pystr "top", .pybytes 0, .pylist []],
      by unfold objsValid; exact List.mem_cons_self _ _, by decide⟩

/-- Claim C9: fuse_pointclouds validates the shape and element types of
every entry before processing any sensor — if any entry is not a
length-3 tuple/list of (string, bytes, list), the whole call raises the
validation ValueError for the first offending entry, independently of
the decoder (no sensor is loaded or fused), even when other entries are
valid. -/
theorem fuse_pointclouds_validates_first (objs : List PyVal) (hne : objs ≠ [])
    (hbad : ∃ obj ∈ objs, (asTriple obj).isSome = false) :
    ∃ m, (∃ io ∈ objs.enum, validateLidarObj io.1 io.2 = some m) ∧
      ∀ (cosF sinF : ℚ → ℚ) (decode : Bytes → Except String PCData),
        fusePointclouds cosF sinF decode (.pylist objs) = .error m := by
  have hfind : objs.enum.findSome? (fun io => validateLidarObj io.1 io.2) ≠ none := by
    intro hnone
    obtain ⟨obj, hobj, hno⟩ := hbad
    obtain ⟨i, hi⟩ := List.get_of_mem hobj
    have hio : ((i : ℕ), obj) ∈ objs.enum := by
      rw [List.mem_enum_iff_getElem?]
      simp [← hi, List.getElem?_eq_getElem]
    have := List.findSome?_eq_none_iff.mp hnone _ hio
    rw [asTriple_isSome_of_validate_none this] at hno
    cases hno
  obtain ⟨m, hm⟩ := Option.ne_none_iff_exists.mp hfind
  have hm := hm.symm
  refine ⟨m, List.exists_of_findSome?_eq_some hm, ?_⟩
  intro cosF sinF decode
  unfold fusePointclouds
  dsimp only
  rw [if_neg (by simp [hne]), hm]

/-- Witness for claim C9: a list whose second entry has length 2; the
call fails with that entry's validation message for every decoder. -/
theorem fuse_pointclouds_validates_first_witness :
    ∃ m, (∃ io ∈ objsInvalid.enum, validateLidarObj io.1 io.2 = some m) ∧
      ∀ (cosF sinF : ℚ → ℚ) (decode : Bytes → Except String PCData),
        fusePointclouds cosF sinF decode (.pylist objsInvalid) = .error m :=
  fuse_pointclouds_validates_first objsInvalid (by simp [objsInvalid])
    ⟨.pytuple [.pystr "left", .pybytes 1],
      by unfold objsInvalid; exact List.mem_cons_of_mem _ (List.mem_cons_self _ _),
      by decide⟩

/-
Claim C8: per-sensor arrays are concatenated in input order.
-/

theorem numpy_ok_eq {a : Arr2} {sa : List StructuredPoint}
    (h : numpyArrayToStructuredArray a = .ok sa) :
    sa = a.rows.map fun r => ⟨r.getD 0 0, r.getD 1 0, r.getD 2 0, r.getD 3 0⟩ := by
  unfold numpyArrayToStructuredArray at h
  split at h
  · cases h
  · split at h
    · cases h
    · injection h with h
      exact h.symm

/-- Claim C8: successful per-sensor point arrays are concatenated
row-wise in the order the sensors were supplied; fusing the spec's
3-point sample cloud with itself under identity transforms (and no
ignore boxes) yields exactly 6 records, the first 3 equal to the
original points and the last 3 equal to the original points. -/
theorem fusion_concat_in_order :
    (∀ (decode : Bytes → Except String PCData) (datasBytes : List (String × Bytes))
      (calib : List (String × List (List FV))) (compression : String) (out : EncodedOut),
      fusionPcdBytes decode datasBytes calib compression = .ok out →
      out.recs = ((datasBytes.filterMap fun sd => (calib.lookup sd.1).bind fun t =>
          (transformPcdFromBytes decode sd.2 t).toOption).map Arr2.rows).flatten.map
        (fun r => ⟨r.getD 0 0, r.getD 1 0, r.getD 2 0, r.getD 3 0⟩)) ∧
    fusionPcdBytes decSample [("top", 0), ("again", 0)] [("top", idT), ("again", idT)]
        "binary_compressed" = .ok ⟨sampleRecs ++ sampleRecs, "binary_compressed"⟩ ∧
    (sampleRecs ++ sampleRecs).length = 6 ∧
    (sampleRecs ++ sampleRecs).take 3 = sampleRecs ∧
    (sampleRecs ++ sampleRecs).drop 3 = sampleRecs := by
  refine ⟨?_, ?_, rfl, rfl, rfl⟩
  · intro decode datasBytes calib compression out h
    have hfe : (fun sd : String × Bytes =>
        match calib.lookup sd.1 with
        | none => none
        | some t =>
          match transformPcdFromBytes decode sd.2 t with
          | .ok pts => some pts
          | .error _ => none) =
        fun sd : String × Bytes => (calib.lookup sd.1).bind fun t =>
          (transformPcdFromBytes decode sd.2 t).toOption := by
      funext sd
      cases calib.lookup sd.1 with
      | none => rfl
      | some t =>
        cases htb : transformPcdFromBytes decode sd.2 t <;>
          simp [htb, Except.toOption]
    unfold fusionPcdBytes at h
    split at h
    · cases h
    · split at h
      · cases h
      · split at h
        · cases h
        · split at h
          · cases h
          · dsimp only at h
            split at h
            · cases h
            · split at h
              · cases h
              · rename_i sa hsa
                injection h with h
                rw [← h]
                dsimp only
                rw [numpy_ok_eq hsa, ← hfe]
  · have htr : transformPcdFromBytes decSample 0 idT =
        .ok ⟨[[0, 1 / 2, -1, 1], [3 / 2, -1 / 4, 0, 2], [3, 2, 3 / 4, 1 / 2]], 4⟩ := by
      norm_num [transformPcdFromBytes, decSample, transformPointCloud,
        validateTransformMatrix, matQ, extractPointCloudData, sampleCols,
        applyTransformToPoints, zip4, RawPoint.isValid, FV.isFinite, FV.val, homoRow,
        matVec, dotQ, idT, Except.bind, bind, List.filter]
    unfold fusionPcdBytes
    rw [if_neg (by decide), if_neg (by decide), if_neg (by decide),
      show firstTransformError (([("top", (0 : Bytes)), ("again", 0)]).map Prod.fst)
        [("top", idT), ("again", idT)] = none from by decide]
    dsimp only
    have hfm : List.filterMap (fun sd =>
        match List.lookup sd.1 [("top", idT), ("again", idT)] with
        | none => none
        | some t =>
          match transformPcdFromBytes decSample sd.2 t with
          | .ok pts => some pts
          | .error _ => none) [("top", (0 : Bytes)), ("again", 0)] =
        [⟨[[0, 1 / 2, -1, 1], [3 / 2, -1 / 4, 0, 2], [3, 2, 3 / 4, 1 / 2]], 4⟩,
         ⟨[[0, 1 / 2, -1, 1], [3 / 2, -1 / 4, 0, 2], [3, 2, 3 / 4, 1 / 2]], 4⟩] := by
      simp only [List.filterMap_cons, List.filterMap_nil, List.lookup,
        show ("top" == "top") = true from rfl, show ("again" == "top") = false from rfl,
        show ("again" == "again") = true from rfl]
      rw [htr]
    rw [hfm]
    norm_num [numpyArrayToStructuredArray, sampleRecs]

/-- Witness for claim C8: the general order statement applied at the
concrete two-sensor input. -/
theorem fusion_concat_in_order_witness :
    (EncodedOut.mk (sampleRecs ++ sampleRecs) "binary_compressed").recs =
      ((([("top", (0 : Bytes)), ("again", 0)].filterMap fun sd =>
        (List.lookup sd.1 [("top", idT), ("again", idT)]).bind fun t =>
          (transformPcdFromBytes decSample sd.2 t).toOption).map Arr2.rows).flatten.map
        (fun r => ⟨r.getD 0 0, r.getD 1 0, r.getD 2 0, r.getD 3 0⟩)) :=
  fusion_concat_in_order.1 decSample [("top", 0), ("again", 0)]
    [("top", idT), ("again", idT)] "binary_compressed"
    ⟨sampleRecs ++ sampleRecs, "binary_compressed"⟩ fusion_concat_in_order.2.1

/-
Claim C1: codec round-trip lemmas.
-/

theorem length_leBytes (k v : ℕ) : (leBytes k v).length = k := by
  induction k generalizing v with
  | zero => rfl
  | succ k ih => simp [leBytes, ih]

theorem leVal_leBytes (k v : ℕ) (h : v < 256 ^ k) : leVal (leBytes k v) = v := by
  induction k generalizing v with
  | zero =>
    interval_cases v
    rfl
  | succ k ih =>
    have hdiv : v / 256 < 256 ^ k := by
      rw [Nat.div_lt_iff_lt_mul (by norm_num)]
      calc v < 256 ^ (k + 1) := h
        _ = 256 ^ k * 256 := by ring
    simp only [leBytes, leVal, ih _ hdiv]
    exact Nat.mod_add_div v 256

theorem splitInto_map_length (ls : List (List α)) :
    splitInto (ls.map List.length) ls.flatten = some ls := by
  induction ls with
  | nil => rfl
  | cons a ls ih =>
    simp only [List.map_cons, List.flatten_cons, splitInto]
    rw [if_pos (by simp), List.take_left, List.drop_left, ih]
    rfl

theorem mapM_map_some (f : β → Option α) (g : α → β) (l : List α)
    (h : ∀ a ∈ l, f (g a) = some a) : (l.map g).mapM f = some l := by
  induction l with
  | nil => rfl
  | cons a l ih =>
    simp only [List.map_cons, List.mapM_cons, h a (by simp),
      ih fun x hx => h x (by simp [hx])]
    rfl

theorem length_flatten_leBytes (sz : ℕ) (vals : List ℕ) :
    ((vals.map (leBytes sz)).flatten).length = vals.length * sz := by
  induction vals with
  | nil => simp
  | cons v vals ih =>
    simp only [List.map_cons, List.flatten_cons, List.length_append, length_leBytes, ih,
      List.length_cons]
    ring

theorem decodeValues_encode (sz : ℕ) (vals : List ℕ)
    (h : ∀ v ∈ vals, v < 256 ^ sz) :
    decodeValues sz vals.length ((vals.map (leBytes sz)).flatten) = some vals := by
  induction vals with
  | nil => rfl
  | cons v vals ih =>
    simp only [List.map_cons, List.flatten_cons, List.length_cons, decodeValues]
    rw [if_pos (by simp [length_leBytes]), List.take_left' (length_leBytes sz v),
      List.drop_left' (length_leBytes sz v), ih fun x hx => h x (by simp [hx]),
      leVal_leBytes sz v (h v (by simp))]
    rfl

theorem decodeRecord_encode : ∀ (r : PcdRecord) (sizes counts : List ℕ),
    r.map List.length = counts → sizes.length = counts.length →
    (∀ p ∈ r.zip sizes, ∀ v ∈ p.1, v < 256 ^ p.2) →
    decodeRecord sizes counts (encodeRecordBytes sizes r) = some r := by
  intro r
  induction r with
  | nil =>
    intro sizes counts hc hl hb
    rw [← hc] at hl ⊢
    simp only [List.map_nil, List.length_nil, List.length_eq_zero] at hl
    rw [hl]
    rfl
  | cons vals r ih =>
    intro sizes counts hc hl hb
    rw [← hc] at hl ⊢
    cases sizes with
    | nil => simp at hl
    | cons sz sizes =>
      simp only [List.map_cons, List.length_cons] at hl ⊢
      have henc : encodeRecordBytes (sz :: sizes) (vals :: r) =
          (vals.map (leBytes sz)).flatten ++ encodeRecordBytes sizes r := by
        simp [encodeRecordBytes]
      rw [henc]
      simp only [decodeRecord]
      have hlen : ((vals.map (leBytes sz)).flatten).length = sz * vals.length := by
        rw [length_flatten_leBytes]
        ring
      rw [if_pos (by simp [hlen]), List.take_left' hlen, List.drop_left' hlen,
        decodeValues_encode sz vals (fun v hv => hb (vals, sz) (by simp) v hv),
        ih sizes (r.map List.length) rfl (by omega)
          (fun p hp v hv => hb p (by simp [hp]) v hv)]
      rfl

theorem decodeRecordsB_encode (sizes counts : List ℕ)
    (hl : sizes.length = counts.length) :
    ∀ buf : List PcdRecord,
    (∀ r ∈ buf, r.map List.length = counts) →
    (∀ r ∈ buf, ∀ p ∈ r.zip sizes, ∀ v ∈ p.1, v < 256 ^ p.2) →
    decodeRecordsB sizes counts (((sizes.zip counts).map fun sc => sc.1 * sc.2).sum)
      buf.length ((buf.map (encodeRecordBytes sizes)).flatten) = some buf := by
  have hrw : ∀ r : PcdRecord, r.map List.length = counts →
      (encodeRecordBytes sizes r).length =
        ((sizes.zip counts).map fun sc => sc.1 * sc.2).sum := by
    intro r hc
    rw [← hc]
    clear hl hc
    induction r generalizing sizes with
    | nil => simp [encodeRecordBytes]
    | cons vals r ih =>
      cases sizes with
      | nil => simp [encodeRecordBytes]
      | cons sz sizes =>
        have henc : encodeRecordBytes (sz :: sizes) (vals :: r) =
            (vals.map (leBytes sz)).flatten ++ encodeRecordBytes sizes r := by
          simp [encodeRecordBytes]
        simp only [henc, List.length_append, length_flatten_leBytes, List.map_cons,
          List.zip_cons_cons, List.sum_cons, ih]
        ring
  intro buf
  induction buf with
  | nil => intro _ _; rfl
  | cons r buf ih =>
    intro hc hb
    simp only [List.map_cons, List.flatten_cons, List.length_cons, decodeRecordsB]
    have hr := hrw r (hc r (by simp))
    rw [if_pos (by simp [hr]), List.take_left' hr, List.drop_left' hr,
      decodeRecord_encode r sizes counts (hc r (by simp)) hl
        (fun p hp v hv => hb r (by simp) p hp v hv),
      ih (fun x hx => hc x (by simp [hx])) (fun x hx => hb x (by simp [hx]))]
    rfl

theorem decodeBinary_encodeBinary (md : Metadata) (buf : List PcdRecord)
    (hsz : md.size.length = md.count.length)
    (hpts : buf.length = md.points)
    (hc : ∀ r ∈ buf, r.map List.length = md.count)
    (hb : ∀ r ∈ buf, ∀ p ∈ r.zip md.size, ∀ v ∈ p.1, v < 256 ^ p.2) :
    decodeBinary md (encodeBinary md buf) = .ok buf := by
  unfold decodeBinary encodeBinary recordWidth
  rw [← hpts, decodeRecordsB_encode md.size md.count hsz buf hc hb]

theorem decodeAscii_encodeAscii (md : Metadata) (buf : List PcdRecord)
    (hpts : buf.length = md.points)
    (hc : ∀ r ∈ buf, r.map List.length = md.count) :
    decodeAscii md (encodeAscii buf) = .ok buf := by
  unfold decodeAscii encodeAscii
  rw [if_pos (by simp [hpts])]
  rw [mapM_map_some _ _ buf (fun r hr => by rw [← hc r hr]; exact splitInto_map_length r)]

theorem rangeMapGetD (l : List α) (d : α) :
    (List.range l.length).map (fun i => l.getD i d) = l := by
  induction l with
  | nil => rfl
  | cons a l ih =>
    rw [List.length_cons, List.range_succ_eq_map, List.map_cons, List.map_map]
    simp only [List.getD_cons_zero]
    have hmc : List.map ((fun i => (a :: l).getD i d) ∘ Nat.succ) (List.range l.length) =
        List.map (fun i => l.getD i d) (List.range l.length) :=
      List.map_congr_left fun i _ => rfl
    rw [hmc, ih]

theorem getD_map_lt (f : α → β) (l : List α) (i : ℕ) (d : α) (d' : β)
    (h : i < l.length) : (l.map f).getD i d' = f (l.getD i d) := by
  rw [List.getD_eq_getElem l d h, List.getD_eq_getElem _ d' (by simpa using h)]
  simp

theorem length_encodeCol (sz cnt : ℕ) (col : List (List ℕ))
    (hc : ∀ vals ∈ col, vals.length = cnt) :
    (encodeCol sz col).length = col.length * (sz * cnt) := by
  induction col with
  | nil => simp [encodeCol]
  | cons vals col ih =>
    simp only [encodeCol, List.map_cons, List.flatten_cons, List.length_append,
      length_flatten_leBytes, hc vals (by simp), List.length_cons]
    rw [show (List.flatten (List.map (fun vals =>
      (List.map (leBytes sz) vals).flatten) col)).length = (encodeCol sz col).length
      from rfl, ih fun x hx => hc x (by simp [hx])]
    ring

theorem decodeColumn_encode (sz cnt : ℕ) (col : List (List ℕ))
    (hc : ∀ vals ∈ col, vals.length = cnt)
    (hb : ∀ vals ∈ col, ∀ v ∈ vals, v < 256 ^ sz) :
    decodeColumn sz cnt col.length (encodeCol sz col) = some col := by
  induction col with
  | nil => rfl
  | cons vals col ih =>
    have henc : encodeCol sz (vals :: col) =
        (vals.map (leBytes sz)).flatten ++ encodeCol sz col := by
      simp [encodeCol]
    have hlen : ((vals.map (leBytes sz)).flatten).length = sz * cnt := by
      rw [length_flatten_leBytes, hc vals (by simp)]
      ring
    simp only [List.length_cons, decodeColumn, henc]
    rw [if_pos (by simp [hlen]), List.take_left' hlen, List.drop_left' hlen]
    have hv : decodeValues sz cnt ((vals.map (leBytes sz)).flatten) = some vals := by
      rw [← hc vals (by simp)]
      exact decodeValues_encode sz vals (hb vals (by simp))
    rw [hv, ih (fun x hx => hc x (by simp [hx])) (fun x hx => hb x (by simp [hx]))]
    rfl

theorem decodeColumns_encode :
    ∀ (l : List (List (List ℕ) × ℕ × ℕ)) (npts : ℕ),
    (∀ c ∈ l, c.1.length = npts) →
    (∀ c ∈ l, ∀ vals ∈ c.1, vals.length = c.2.2) →
    (∀ c ∈ l, ∀ vals ∈ c.1, ∀ v ∈ vals, v < 256 ^ c.2.1) →
    decodeColumns npts (l.map fun c => c.2.1) (l.map fun c => c.2.2)
      ((l.map fun c => encodeCol c.2.1 c.1).flatten) = some (l.map fun c => c.1) := by
  intro l
  induction l with
  | nil => intro npts _ _ _; rfl
  | cons c l ih =>
    intro npts hn hc hb
    have hlen : (encodeCol c.2.1 c.1).length = npts * (c.2.1 * c.2.2) := by
      rw [length_encodeCol c.2.1 c.2.2 c.1 (hc c (by simp)), hn c (by simp)]
    simp only [List.map_cons, List.flatten_cons, decodeColumns]
    rw [if_pos (by simp [hlen]), List.take_left' hlen, List.drop_left' hlen]
    have hcol : decodeColumn c.2.1 c.2.2 npts (encodeCol c.2.1 c.1) = some c.1 := by
      rw [← hn c (by simp)]
      exact decodeColumn_encode c.2.1 c.2.2 c.1 (hc c (by simp)) (hb c (by simp))
    rw [hcol, ih npts (fun x hx => hn x (by simp [hx])) (fun x hx => hc x (by simp [hx]))
      (fun x hx => hb x (by simp [hx]))]
    rfl

theorem zip_eq_range_map (a : List α) (b : List β) (da : α) (db : β)
    (h : a.length = b.length) :
    a.zip b = (List.range a.length).map fun j => (a.getD j da, b.getD j db) := by
  induction a generalizing b with
  | nil => simp
  | cons x a ih =>
    cases b with
    | nil => simp at h
    | cons y b =>
      rw [List.zip_cons_cons, List.length_cons, List.range_succ_eq_map, List.map_cons,
        List.map_map]
      simp only [List.getD_cons_zero]
      congr 1
      calc a.zip b = List.map (fun j => (a.getD j da, b.getD j db))
            (List.range a.length) := ih b (by simpa using h)
        _ = List.map ((fun j => ((x :: a).getD j da, (y :: b).getD j db)) ∘ Nat.succ)
            (List.range a.length) := by
          apply List.map_congr_left
          intro i _
          rfl

theorem getD_pair_mem_zip {a : List α} {b : List β} {j : ℕ} (da : α) (db : β)
    (ha : j < a.length) (hb : j < b.length) :
    (a.getD j da, b.getD j db) ∈ a.zip b := by
  induction a generalizing b j with
  | nil => simp at ha
  | cons x a ih =>
    cases b with
    | nil => simp at hb
    | cons y b =>
      cases j with
      | zero => simp
      | succ j =>
        simp only [List.getD_cons_succ, List.zip_cons_cons]
        exact List.mem_cons_of_mem _ (ih (by simpa using ha) (by simpa using hb))

theorem decodeColumnMajor_encode (md : Metadata) (buf : List PcdRecord)
    (hszf : md.size.length = md.fields.length)
    (hcnf : md.count.length = md.fields.length)
    (hpts : buf.length = md.points)
    (hc : ∀ r ∈ buf, r.map List.length = md.count)
    (hb : ∀ r ∈ buf, ∀ p ∈ r.zip md.size, ∀ v ∈ p.1, v < 256 ^ p.2) :
    decodeColumnMajor md (encodeColumnMajor md buf) = some buf := by
  have hrlen : ∀ r ∈ buf, r.length = md.fields.length := by
    intro r hr
    have h1 := congrArg List.length (hc r hr)
    rw [List.length_map] at h1
    rw [h1, hcnf]
  have hdec : decodeColumns md.points md.size md.count (encodeColumnMajor md buf) =
      some ((List.range md.fields.length).map fun j => colOf buf j) := by
    have hgen := decodeColumns_encode
      ((List.range md.fields.length).map fun j =>
        (colOf buf j, md.size.getD j 0, md.count.getD j 0)) md.points
      (by
        intro c hcm
        obtain ⟨j, hj, rfl⟩ := List.mem_map.mp hcm
        simpa [colOf] using hpts)
      (by
        intro c hcm vals hv
        obtain ⟨j, hj, rfl⟩ := List.mem_map.mp hcm
        rw [List.mem_range] at hj
        obtain ⟨r, hr, rfl⟩ := List.mem_map.mp hv
        have hjr : j < r.length := by rw [hrlen r hr]; exact hj
        calc (r.getD j []).length = (r.map List.length).getD j 0 :=
            (getD_map_lt List.length r j [] 0 hjr).symm
          _ = md.count.getD j 0 := by rw [hc r hr]
        )
      (by
        intro c hcm vals hv v hvv
        obtain ⟨j, hj, rfl⟩ := List.mem_map.mp hcm
        rw [List.mem_range] at hj
        obtain ⟨r, hr, rfl⟩ := List.mem_map.mp hv
        have hjr : j < r.length := by rw [hrlen r hr]; exact hj
        have hjs : j < md.size.length := by rw [hszf]; exact hj
        exact hb r hr _ (getD_pair_mem_zip [] 0 hjr hjs) v hvv)
    simp only [List.map_map] at hgen
    have e1 : (List.range md.fields.length).map ((fun c : List (List ℕ) × ℕ × ℕ =>
        c.2.1) ∘ fun j => (colOf buf j, md.size.getD j 0, md.count.getD j 0)) = md.size := by
      rw [show ((fun c : List (List ℕ) × ℕ × ℕ => c.2.1) ∘ fun j =>
        (colOf buf j, md.size.getD j 0, md.count.getD j 0)) =
        fun j => md.size.getD j 0 from rfl, ← hszf]
      exact rangeMapGetD md.size 0
    have e2 : (List.range md.fields.length).map ((fun c : List (List ℕ) × ℕ × ℕ =>
        c.2.2) ∘ fun j => (colOf buf j, md.size.getD j 0, md.count.getD j 0)) = md.count := by
      rw [show ((fun c : List (List ℕ) × ℕ × ℕ => c.2.2) ∘ fun j =>
        (colOf buf j, md.size.getD j 0, md.count.getD j 0)) =
        fun j => md.count.getD j 0 from rfl, ← hcnf]
      exact rangeMapGetD md.count 0
    have e3 : (List.range md.fields.length).map ((fun c : List (List ℕ) × ℕ × ℕ =>
        encodeCol c.2.1 c.1) ∘ fun j =>
        (colOf buf j, md.size.getD j 0, md.count.getD j 0)) =
        (List.range md.fields.length).map fun j =>
          encodeCol (md.size.getD j 0) (colOf buf j) := rfl
    have e4 : (List.range md.fields.length).map ((fun c : List (List ℕ) × ℕ × ℕ =>
        c.1) ∘ fun j => (colOf buf j, md.size.getD j 0, md.count.getD j 0)) =
        (List.range md.fields.length).map fun j => colOf buf j := rfl
    rw [e1, e2, e3, e4] at hgen
    exact hgen
  unfold decodeColumnMajor
  rw [hdec]
  simp only [Option.map_some']
  congr 1
  simp only [List.map_map]
  have houter : ∀ i ∈ List.range md.points,
      ((List.range md.fields.length).map ((fun col : List (List ℕ) => col.getD i []) ∘
        fun j => colOf buf j)) = buf.getD i [] := by
    intro i hi
    rw [List.mem_range, ← hpts] at hi
    have hinner : ((fun col : List (List ℕ) => col.getD i []) ∘ fun j => colOf buf j) =
        fun j => (buf.getD i []).getD j [] := by
      funext j
      exact getD_map_lt (fun r => r.getD j []) buf i [] [] hi
    rw [hinner]
    have hlen : (buf.getD i []).length = md.fields.length := by
      rw [List.getD_eq_getElem buf [] hi]
      exact hrlen _ (List.getElem_mem _)
    rw [← hlen]
    exact rangeMapGetD _ []
  calc (List.range md.points).map (fun i => (List.range md.fields.length).map
        ((fun col : List (List ℕ) => col.getD i []) ∘ fun j => colOf buf j)) =
      (List.range md.points).map fun i => buf.getD i [] :=
        List.map_congr_left houter
    _ = buf := by rw [← hpts]; exact rangeMapGetD buf []

theorem length_encodeColumnMajor (md : Metadata) (buf : List PcdRecord)
    (hszf : md.size.length = md.fields.length)
    (hcnf : md.count.length = md.fields.length)
    (hpts : buf.length = md.points)
    (hc : ∀ r ∈ buf, r.map List.length = md.count) :
    (encodeColumnMajor md buf).length = md.points * recordWidth md := by
  have hrlen : ∀ r ∈ buf, r.length = md.fields.length := by
    intro r hr
    have h1 := congrArg List.length (hc r hr)
    rw [List.length_map] at h1
    rw [h1, hcnf]
  unfold encodeColumnMajor
  rw [List.length_flatten, List.map_map]
  have hcong : ∀ j ∈ List.range md.fields.length,
      (List.length ∘ fun j => encodeCol (md.size.getD j 0) (colOf buf j)) j =
        md.points * (md.size.getD j 0 * md.count.getD j 0) := by
    intro j hj
    rw [List.mem_range] at hj
    have hcols : ∀ vals ∈ colOf buf j, vals.length = md.count.getD j 0 := by
      intro vals hv
      obtain ⟨r, hr, rfl⟩ := List.mem_map.mp hv
      have hjr : j < r.length := by rw [hrlen r hr]; exact hj
      calc (r.getD j []).length = (r.map List.length).getD j 0 :=
          (getD_map_lt List.length r j [] 0 hjr).symm
        _ = md.count.getD j 0 := by rw [hc r hr]
    show (encodeCol (md.size.getD j 0) (colOf buf j)).length = _
    rw [length_encodeCol _ _ _ hcols]
    simp [colOf, hpts]
  rw [List.map_congr_left hcong, List.sum_map_mul_left]
  congr 1
  unfold recordWidth
  rw [zip_eq_range_map md.size md.count 0 0 (by rw [hszf, hcnf]), List.map_map, hszf]
  rfl

theorem decodeCompressed_encodeCompressed (md : Metadata) (buf : List PcdRecord)
    (hszf : md.size.length = md.fields.length)
    (hcnf : md.count.length = md.fields.length)
    (hpts : buf.length = md.points)
    (hc : ∀ r ∈ buf, r.map List.length = md.count)
    (hb : ∀ r ∈ buf, ∀ p ∈ r.zip md.size, ∀ v ∈ p.1, v < 256 ^ p.2)
    (hbound : md.points * recordWidth md < 256 ^ 4) :
    decodeCompressed md (encodeCompressed md buf) = .ok buf := by
  have hraw : (encodeColumnMajor md buf).length = md.points * recordWidth md :=
    length_encodeColumnMajor md buf hszf hcnf hpts hc
  have hlt : (encodeColumnMajor md buf).length < 256 ^ 4 := by rw [hraw]; exact hbound
  have h4 : ∀ v : ℕ, (leBytes 4 v).length = 4 := fun v => length_leBytes 4 v
  unfold encodeCompressed decodeCompressed lzfCompress lzfDecompress
  dsimp only
  rw [List.append_assoc]
  have h1 : (leBytes 4 (encodeColumnMajor md buf).length ++
      (leBytes 4 (encodeColumnMajor md buf).length ++ encodeColumnMajor md buf)).take 4 =
      leBytes 4 (encodeColumnMajor md buf).length := List.take_left' (h4 _)
  have h2 : ((leBytes 4 (encodeColumnMajor md buf).length ++
      (leBytes 4 (encodeColumnMajor md buf).length ++ encodeColumnMajor md buf)).drop
        4).take 4 = leBytes 4 (encodeColumnMajor md buf).length := by
    rw [List.drop_left' (h4 _), List.take_left' (h4 _)]
  have h3 : (leBytes 4 (encodeColumnMajor md buf).length ++
      (leBytes 4 (encodeColumnMajor md buf).length ++ encodeColumnMajor md buf)).drop 8 =
      encodeColumnMajor md buf := by
    rw [← List.append_assoc]
    exact List.drop_left' (by simp [h4])
  rw [if_pos (by simp [h4]; omega), h1, h2, h3, leVal_leBytes 4 _ hlt,
    if_pos (le_refl _), List.take_length, if_pos ⟨rfl, hraw⟩,
    decodeColumnMajor_encode md buf hszf hcnf hpts hc hb]

theorem mapM_asStr (l : List String) : (l.map Token.ts).mapM asStr = some l :=
  mapM_map_some asStr Token.ts l fun _ _ => rfl

theorem mapM_asNat (l : List ℕ) : (l.map Token.tn).mapM asNat = some l :=
  mapM_map_some asNat Token.tn l fun _ _ => rfl

theorem mapM_asQ (l : List ℚ) : (l.map Token.tq).mapM asQ = some l :=
  mapM_map_some asQ Token.tq l fun _ _ => rfl

theorem mapM_asType (l : List TypeCode) :
    (l.map fun t => Token.ts t.toStr).mapM asType = some l :=
  mapM_map_some asType (fun t => Token.ts t.toStr) l fun t _ => by cases t <;> rfl

theorem stepLine_version (st : ParseState) (v : String) :
    stepLine st (.entry "VERSION" [.ts v]) = .ok { st with version := some v } := by
  unfold stepLine
  dsimp only
  rw [if_pos (by decide)]

theorem stepLine_fields (st : ParseState) (fs : List String) :
    stepLine st (.entry "FIELDS" (fs.map .ts)) = .ok { st with fields := some fs } := by
  unfold stepLine
  dsimp only
  rw [if_neg (by decide), if_pos (by decide), mapM_asStr]

theorem stepLine_size (st : ParseState) (ns : List ℕ) :
    stepLine st (.entry "SIZE" (ns.map .tn)) = .ok { st with size := some ns } := by
  unfold stepLine
  dsimp only
  rw [if_neg (by decide), if_neg (by decide), if_pos (by decide), mapM_asNat]

theorem stepLine_type (st : ParseState) (ts : List TypeCode) :
    stepLine st (.entry "TYPE" (ts.map fun t => Token.ts t.toStr)) =
      .ok { st with typ := some ts } := by
  unfold stepLine
  dsimp only
  rw [if_neg (by decide), if_neg (by decide), if_neg (by decide), if_pos (by decide),
    mapM_asType]

theorem stepLine_count (st : ParseState) (ns : List ℕ) :
    stepLine st (.entry "COUNT" (ns.map .tn)) = .ok { st with count := some ns } := by
  unfold stepLine
  dsimp only
  rw [if_neg (by decide), if_neg (by decide), if_neg (by decide), if_neg (by decide),
    if_pos (by decide), mapM_asNat]

theorem stepLine_width (st : ParseState) (n : ℕ) :
    stepLine st (.entry "WIDTH" [.tn n]) = .ok { st with width := some n } := by
  unfold stepLine
  dsimp only
  rw [if_neg (by decide), if_neg (by decide), if_neg (by decide), if_neg (by decide),
    if_neg (by decide), if_pos (by decide)]

theorem stepLine_height (st : ParseState) (n : ℕ) :
    stepLine st (.entry "HEIGHT" [.tn n]) = .ok { st with height := some n } := by
  unfold stepLine
  dsimp only
  rw [if_neg (by decide), if_neg (by decide), if_neg (by decide), if_neg (by decide),
    if_neg (by decide), if_neg (by decide), if_pos (by decide)]

theorem stepLine_viewpoint (st : ParseState) (qs : List ℚ) :
    stepLine st (.entry "VIEWPOINT" (qs.map .tq)) =
      .ok { st with viewpoint := some qs } := by
  unfold stepLine
  dsimp only
  rw [if_neg (by decide), if_neg (by decide), if_neg (by decide), if_neg (by decide),
    if_neg (by decide), if_neg (by decide), if_neg (by decide), if_pos (by decide),
    mapM_asQ]

theorem stepLine_points (st : ParseState) (n : ℕ) :
    stepLine st (.entry "POINTS" [.tn n]) = .ok { st with points := some n } := by
  unfold stepLine
  dsimp only
  rw [if_neg (by decide), if_neg (by decide), if_neg (by decide), if_neg (by decide),
    if_neg (by decide), if_neg (by decide), if_neg (by decide), if_neg (by decide),
    if_pos (by decide)]

theorem stepLine_data (st : ParseState) (d : String) :
    stepLine st (.entry "DATA" [.ts d]) = .ok { st with data := some d } := by
  unfold stepLine
  dsimp only
  rw [if_neg (by decide), if_neg (by decide), if_neg (by decide), if_neg (by decide),
    if_neg (by decide), if_neg (by decide), if_neg (by decide), if_neg (by decide),
    if_neg (by decide), if_pos (by decide)]

theorem parseHeader_serializeHeader (md : Metadata)
    (hsz : md.size.length = md.fields.length)
    (hty : md.typ.length = md.fields.length)
    (hcnt : md.count.length = md.fields.length) :
    parseHeader (serializeHeader md) = .ok md := by
  unfold parseHeader serializeHeader
  simp only [List.foldlM_cons, List.foldlM_nil, stepLine_version, stepLine_fields,
    stepLine_size, stepLine_type, stepLine_count, stepLine_width, stepLine_height,
    stepLine_viewpoint, stepLine_points, stepLine_data, bind, Except.bind, pure,
    Except.pure]
  unfold finalizeHeader
  dsimp only
  rw [if_pos ⟨hsz, hty, hcnt⟩]
  rfl

/-- Claim C1: for every consistent PointCloud and every compression tag
in {ascii, binary, binary_compressed}, decoding the serialized form
produced by encoding the cloud with that tag yields a PointCloud equal
to the original in every field, with the metadata re-tagged to the
requested encoding.  (Values are raw bit patterns, so the equality is
exact; the ascii token format is modelled per the spec's open choice as
the exactly round-tripping value rendering.) -/
theorem pcd_roundtrip (pc : PCloud) (tag : String) (hw : wfCloud pc)
    (ht : tag = "ascii" ∨ tag = "binary" ∨ tag = "binary_compressed") :
    ∃ e, toBytes pc tag = .ok e ∧
      fromBytes e = .ok ⟨{ pc.md with data := tag }, pc.buf⟩ := by
  obtain ⟨hsz, hty, hcnt, hwh, hpts, hc, hb, hbound⟩ := hw
  rcases ht with h | h | h <;> subst h
  · refine ⟨⟨serializeHeader { pc.md with data := "ascii" },
      .asciiBody (encodeAscii pc.buf)⟩, ?_, ?_⟩
    · unfold toBytes
      rw [if_pos (Or.inl rfl)]
      dsimp only
      rw [if_pos rfl]
    · unfold fromBytes
      rw [parseHeader_serializeHeader { pc.md with data := "ascii" } hsz hty hcnt]
      dsimp only
      rw [if_pos rfl, decodeAscii_encodeAscii { pc.md with data := "ascii" } pc.buf
        hpts hc]
      rfl
  · refine ⟨⟨serializeHeader { pc.md with data := "binary" },
      .binBody (encodeBinary { pc.md with data := "binary" } pc.buf)⟩, ?_, ?_⟩
    · unfold toBytes
      rw [if_pos (Or.inr (Or.inl rfl))]
      dsimp only
      rw [if_neg (by decide), if_pos rfl]
    · unfold fromBytes
      rw [parseHeader_serializeHeader { pc.md with data := "binary" } hsz hty hcnt]
      dsimp only
      rw [if_pos rfl, decodeBinary_encodeBinary { pc.md with data := "binary" } pc.buf
        (by rw [hsz, hcnt]) hpts hc hb]
      rfl
  · refine ⟨⟨serializeHeader { pc.md with data := "binary_compressed" },
      .binBody (encodeCompressed { pc.md with data := "binary_compressed" } pc.buf)⟩,
      ?_, ?_⟩
    · unfold toBytes
      rw [if_pos (Or.inr (Or.inr rfl))]
      dsimp only
      rw [if_neg (by decide), if_neg (by decide)]
    · unfold fromBytes
      rw [parseHeader_serializeHeader { pc.md with data := "binary_compressed" }
        hsz hty hcnt]
      dsimp only
      rw [if_neg (by decide), if_pos rfl,
        decodeCompressed_encodeCompressed { pc.md with data := "binary_compressed" }
          pc.buf hsz hcnt hpts hc hb hbound]
      rfl

/-- Witness for claim C1 at the concrete sample cloud and the
binary_compressed tag. -/
theorem pcd_roundtrip_witness :
    ∃ e, toBytes pcSample "binary_compressed" = .ok e ∧
      fromBytes e = .ok ⟨{ pcSample.md with data := "binary_compressed" }, pcSample.buf⟩ :=
  pcd_roundtrip pcSample "binary_compressed" (by decide) (Or.inr (Or.inr rfl))

end WindPypcd
